import Mathlib

/-!
Shallow embedding of the AI-UI-Generator backend pipeline
(intent analysis, plan generation, plan/security validation,
diffing, version store, and the generate/rollback orchestration),
together with theorems settling the specification claims.
-/

namespace UIGen

/-- JS `\s` whitespace class (the ASCII part, which is all this code base uses). -/
def isWsChar (c : Char) : Bool :=
  c = ' ' || c = '\t' || c = '\n' || c = '\r' || c = Char.ofNat 11 || c = Char.ofNat 12

/-- JS `\w` word-character class: letters, digits, underscore. -/
def isWordChar (c : Char) : Bool :=
  c.isAlpha || c.isDigit || c = '_'

/-- `String.prototype.toLowerCase`. -/
def toLowerStr (s : String) : String := String.mk (s.toList.map Char.toLower)

/-- Substring containment on character lists (JS `String.prototype.includes`). -/
def listIncl (pat : List Char) : List Char → Bool
  | [] => pat.isPrefixOf []
  | c :: t => pat.isPrefixOf (c :: t) || listIncl pat t

/-- JS `hay.includes pat`. -/
def strIncludes (hay pat : String) : Bool := listIncl pat.toList hay.toList

/-- JS `String.prototype.trim` (strip leading/trailing whitespace). -/
def jsTrim (s : String) : String :=
  String.mk (((s.toList.dropWhile isWsChar).reverse.dropWhile isWsChar).reverse)

/-- The accumulator loop of `splitLines`. -/
def splitLinesGo : List Char → List Char → List String
  | [], acc => [String.mk acc.reverse]
  | c :: rest, acc =>
    if c = '\n' then String.mk acc.reverse :: splitLinesGo rest []
    else splitLinesGo rest (c :: acc)

/-- JS `str.split('\n')`. -/
def splitLines (s : String) : List String := splitLinesGo s.toList []

/-- JS `str.substring(0, n)`. -/
def strTake (s : String) (n : Nat) : String := String.mk (s.toList.take n)

/-- JS `arr.join(sep)`-style joining of strings. -/
def joinSep (sep : String) : List String → String
  | [] => ""
  | [x] => x
  | x :: y :: t => x ++ sep ++ joinSep sep (y :: t)

/-! ## Data model (backend `types/index.ts`) -/

/-- A JSON-ish prop value (`Record<string, any>` entries in `ComponentNode.props`).
`vNull` stands for JS `null`. -/
inductive PVal where
  | vStr (s : String)
  | vNum (n : Int)
  | vBool (b : Bool)
  | vArr (elems : List PVal)
  | vObj
  | vNull

/-- JS `typeof` on a `PVal` (arrays and `null` report `"object"`). -/
def typeofStr : PVal → String
  | .vStr _ => "string"
  | .vNum _ => "number"
  | .vBool _ => "boolean"
  | .vArr _ => "object"
  | .vObj => "object"
  | .vNull => "object"

/-- `PropSchema.type` from `types/index.ts`. -/
inductive PType where
  | string | number | boolean | enum | handler | array | object
deriving DecidableEq

/-- `PropSchema` from `types/index.ts` (`values` only populated for enums). -/
structure PropSchema where
  type : PType
  required : Bool := false
  default : Option PVal := none
  values : List String := []
  description : String := ""

/-- `ComponentSchema`; the source `constraints` object is flattened into the
two optional lists (absent constraint = `[]`/unused by the validators). -/
structure ComponentSchema where
  displayName : String
  description : String := ""
  props : List (String × PropSchema)
  allowedParents : List String := []
  allowedChildren : List String := []

mutual
/-- `ComponentNode`: `children` is optional in the source, so `none` models an
absent `children` key. -/
inductive CNode where
  | mk (id : String) (ctype : String) (props : List (String × PVal)) (children : Option (List Child))
/-- A child entry is a nested node or literal text. -/
inductive Child where
  | node (n : CNode)
  | text (s : String)
end

def CNode.id : CNode → String | .mk i _ _ _ => i
def CNode.type : CNode → String | .mk _ t _ _ => t
def CNode.props : CNode → List (String × PVal) | .mk _ _ p _ => p
def CNode.children : CNode → Option (List Child) | .mk _ _ _ c => c

/-- `GenerationPlan.layout`. -/
structure LayoutHints where
  direction : Option String := none
  spacing : Option String := none

/-- `GenerationPlan`. -/
structure GenerationPlan where
  intent : String
  components : List CNode
  layout : Option LayoutHints := none
  description : Option String := none

/-! ## Component library (`types/componentLibrary.ts`) -/

/-- The fixed deterministic component whitelist `COMPONENT_LIBRARY`. -/
def COMPONENT_LIBRARY : List (String × ComponentSchema) := [
  ("Stack", {
    displayName := "Stack", description := "Directional layout container",
    props := [
      ("direction", { type := .enum, required := true, values := ["horizontal", "vertical"],
                      description := "Flex direction" }),
      ("spacing", { type := .enum, required := false, values := ["sm", "md", "lg"],
                    default := some (.vStr "md"), description := "Gap between children" }),
      ("children", { type := .array, required := false, description := "Child components" })],
    allowedChildren := ["Button", "Card", "Input", "Select", "TextArea",
                        "Header", "Modal", "List", "Grid", "Text"] }),
  ("Grid", {
    displayName := "Grid", description := "CSS Grid layout",
    props := [
      ("columns", { type := .number, required := true, description := "Number of columns" }),
      ("gap", { type := .enum, required := false, values := ["sm", "md", "lg"],
                default := some (.vStr "md"), description := "Grid gap" }),
      ("children", { type := .array, required := false, description := "Child components" })],
    allowedChildren := ["Card", "Button", "Input", "Header"] }),
  ("Header", {
    displayName := "Header", description := "Page header with optional navigation",
    props := [
      ("title", { type := .string, required := true, description := "Header title text" }),
      ("subtitle", { type := .string, required := false, description := "Optional subtitle" }),
      ("showNav", { type := .boolean, required := false, default := some (.vBool false),
                    description := "Show navigation bar" })],
    allowedParents := ["Stack", "Grid"] }),
  ("Card", {
    displayName := "Card", description := "Content container with elevation",
    props := [
      ("title", { type := .string, required := false, description := "Card title" }),
      ("subtitle", { type := .string, required := false, description := "Card subtitle" }),
      ("children", { type := .array, required := false, description := "Card content" })],
    allowedChildren := ["Button", "Input", "Select", "TextArea", "Stack", "List", "Text"] }),
  ("Text", {
    displayName := "Text", description := "Text content component",
    props := [
      ("content", { type := .string, required := true, description := "Text content" }),
      ("variant", { type := .enum, required := false, values := ["body", "small", "large"],
                    default := some (.vStr "body"), description := "Text size variant" })] }),
  ("Input", {
    displayName := "Input", description := "Text input field",
    props := [
      ("label", { type := .string, required := false, description := "Input label" }),
      ("type", { type := .enum, required := false,
                 values := ["text", "email", "password", "number"],
                 default := some (.vStr "text"), description := "Input type" }),
      ("placeholder", { type := .string, required := false, description := "Placeholder text" }),
      ("required", { type := .boolean, required := false, default := some (.vBool false),
                     description := "Required field" }),
      ("disabled", { type := .boolean, required := false, default := some (.vBool false),
                     description := "Disabled state" })] }),
  ("TextArea", {
    displayName := "TextArea", description := "Multi-line text input",
    props := [
      ("label", { type := .string, required := false, description := "TextArea label" }),
      ("placeholder", { type := .string, required := false, description := "Placeholder text" }),
      ("rows", { type := .number, required := false, default := some (.vNum 4),
                 description := "Number of rows" }),
      ("required", { type := .boolean, required := false, default := some (.vBool false),
                     description := "Required field" })] }),
  ("Select", {
    displayName := "Select", description := "Dropdown selector",
    props := [
      ("label", { type := .string, required := false, description := "Select label" }),
      ("options", { type := .array, required := true, description := "Array of option strings" }),
      ("required", { type := .boolean, required := false, default := some (.vBool false),
                     description := "Required field" }),
      ("disabled", { type := .boolean, required := false, default := some (.vBool false),
                     description := "Disabled state" })] }),
  ("Button", {
    displayName := "Button", description := "Interactive button",
    props := [
      ("children", { type := .string, required := true, description := "Button text" }),
      ("variant", { type := .enum, required := false,
                    values := ["primary", "secondary", "danger"],
                    default := some (.vStr "primary"), description := "Visual variant" }),
      ("disabled", { type := .boolean, required := false, default := some (.vBool false),
                     description := "Disabled state" }),
      ("fullWidth", { type := .boolean, required := false, default := some (.vBool false),
                      description := "Full width button" })] }),
  ("Modal", {
    displayName := "Modal", description := "Dialog overlay",
    props := [
      ("title", { type := .string, required := true, description := "Modal title" }),
      ("open", { type := .boolean, required := true, description := "Modal visibility state" }),
      ("children", { type := .array, required := false, description := "Modal content" })],
    allowedChildren := ["Card", "Stack", "Button", "Text"] }),
  ("List", {
    displayName := "List", description := "Iterable list component",
    props := [
      ("items", { type := .array, required := true, description := "Array of items to render" }),
      ("renderItem", { type := .string, required := true, description := "Template for each item" })] }),
  ("Divider", {
    displayName := "Divider", description := "Visual separator",
    props := [
      ("spacing", { type := .enum, required := false, values := ["sm", "md", "lg"],
                    default := some (.vStr "md"), description := "Divider spacing" })] }),
  ("Alert", {
    displayName := "Alert", description := "Alert/notification message",
    props := [
      ("message", { type := .string, required := true, description := "Alert message text" }),
      ("type", { type := .enum, required := false,
                 values := ["info", "success", "warning", "error"],
                 default := some (.vStr "info"), description := "Alert type" })] })]

/-- `getComponentSchema`: `COMPONENT_LIBRARY[componentName] || null`. -/
def getComponentSchema (componentName : String) : Option ComponentSchema :=
  COMPONENT_LIBRARY.lookup componentName

/-- `isComponentWhitelisted`: `componentName in COMPONENT_LIBRARY`. -/
def isComponentWhitelisted (componentName : String) : Bool :=
  COMPONENT_LIBRARY.any (fun e => e.1 == componentName)

/-! ## Validation (`utils/index.ts` and `services/validationService.ts`) -/

/-- `ValidationError` (severity is the literal `'error'`/`'warning'`). -/
structure ValidationError where
  path : String
  message : String
  severity : String
deriving DecidableEq

/-- `ValidationResult`. -/
structure ValidationResult where
  valid : Bool
  errors : List ValidationError

/-- `validatePropValue` from `utils/index.ts`; `none` means the value passed.
JS returns early for `null`/`undefined` values, and the `handler` kind hits the
permissive `default` branch. -/
def validatePropValue (value : PVal) (schema : PropSchema) : Option String :=
  match value with
  | .vNull => none
  | v =>
    match schema.type with
    | .string =>
      match v with
      | .vStr _ => none
      | _ => some ("Expected string, got " ++ typeofStr v)
    | .number =>
      match v with
      | .vNum _ => none
      | _ => some ("Expected number, got " ++ typeofStr v)
    | .boolean =>
      match v with
      | .vBool _ => none
      | _ => some ("Expected boolean, got " ++ typeofStr v)
    | .enum =>
      if (match v with | .vStr s => schema.values.contains s | _ => false) then none
      else some ("Value must be one of: " ++ joinSep ", " schema.values)
    | .array =>
      match v with
      | .vArr _ => none
      | _ => some ("Expected array, got " ++ typeofStr v)
    | .object =>
      match v with
      | .vObj => none
      | w => some ("Expected object, got " ++ typeofStr w)
    | .handler => none

/-- The errors `validateComponentProps` pushes for one schema prop entry:
a missing-required error, then a value error when the prop is present. -/
def propEntryErrors (componentName : String) (props : List (String × PVal))
    (entry : String × PropSchema) : List ValidationError :=
  (if entry.2.required && !(props.any (fun p => p.1 == entry.1)) then
    [⟨componentName ++ "." ++ entry.1,
      "Required prop \"" ++ entry.1 ++ "\" is missing", "error"⟩]
  else []) ++
  (match props.lookup entry.1 with
   | some v =>
     match validatePropValue v entry.2 with
     | some m => [⟨componentName ++ "." ++ entry.1, m, "error"⟩]
     | none => []
   | none => [])

/-- `validateComponentProps` from `utils/index.ts`. -/
def validateComponentProps (componentName : String) (props : List (String × PVal)) :
    List ValidationError :=
  match getComponentSchema componentName with
  | none => [⟨componentName, "Component \"" ++ componentName ++ "\" not found in whitelist",
             "error"⟩]
  | some schema => (schema.props.map (propEntryErrors componentName props)).flatten

/-- `ValidationService.validatePlan`. The source first rejects a missing or
non-array `components` field; a typed plan always carries a list, so only the
emptiness branch is live here. JS truthiness makes an empty-string layout
field skip its membership check. -/
def validatePlan (plan : GenerationPlan) : ValidationResult :=
  let emptyErrs : List ValidationError :=
    if plan.components.length = 0 then
      [⟨"plan.components", "Plan must contain at least one component", "error"⟩]
    else []
  let compErrs : List ValidationError :=
    (plan.components.map (fun c =>
      if !(isComponentWhitelisted c.type) then
        [⟨"plan.components." ++ c.id,
          "Component type \"" ++ c.type ++ "\" is not whitelisted", "error"⟩]
      else validateComponentProps c.type c.props)).flatten
  let layoutErrs : List ValidationError :=
    match plan.layout with
    | none => []
    | some l =>
      (match l.direction with
       | some d =>
         if d != "" && !(["horizontal", "vertical"].contains d) then
           [⟨"plan.layout.direction",
             "Layout direction must be \"horizontal\" or \"vertical\"", "error"⟩]
         else []
       | none => []) ++
      (match l.spacing with
       | some sp =>
         if sp != "" && !(["sm", "md", "lg"].contains sp) then
           [⟨"plan.layout.spacing",
             "Layout spacing must be \"sm\", \"md\", or \"lg\"", "error"⟩]
         else []
       | none => [])
  let errors := emptyErrs ++ compErrs ++ layoutErrs
  { valid := errors.isEmpty, errors := errors }

mutual
/-- All nodes of a subtree, in tree order (the node, then its children's trees). -/
def collectNode : CNode → List CNode
  | .mk i t p none => [.mk i t p none]
  | .mk i t p (some cs) => .mk i t p (some cs) :: collectChildren cs
/-- All nodes reachable from a children list, in order (text entries hold no nodes). -/
def collectChildren : List Child → List CNode
  | [] => []
  | .node n :: rest => collectNode n ++ collectChildren rest
  | .text _ :: rest => collectChildren rest
end

/-- All nodes of a forest, in tree order. -/
def collectNodes (l : List CNode) : List CNode := (l.map collectNode).flatten

/-! ## Security scanner (`utils/safety.ts`)

The regular expressions of the source fall into a tiny fragment: literal text
(matched case-insensitively under the `i` flag), `\s+`, `\s*`, and a leading
`\b`. In every pattern the `\s+`/`\s*` is followed by a literal whose first
character is not whitespace, so maximal-munch matching coincides with the
backtracking semantics of the JS engine. -/

/-- One token of a source regex in the fragment used by `safety.ts`. -/
inductive PatTok where
  | lit (s : String)
  | ws1
  | ws0

/-- Case-insensitive prefix test on character lists. -/
def litPrefixCI : List Char → List Char → Bool
  | [], _ => true
  | _ :: _, [] => false
  | p :: ps, c :: cs => (p.toLower == c.toLower) && litPrefixCI ps cs

/-- Case-sensitive prefix test on character lists. -/
def litPrefixCS : List Char → List Char → Bool
  | [], _ => true
  | _ :: _, [] => false
  | p :: ps, c :: cs => (p == c) && litPrefixCS ps cs

/-- Length of the text a token sequence matches at the start of `cs`
(`none` when it does not match there). `ci` selects case-insensitive literals. -/
def matchToksLen (ci : Bool) : List PatTok → List Char → Option Nat
  | [], _ => some 0
  | .lit s :: rest, cs =>
    let p := s.toList
    if (if ci then litPrefixCI p cs else litPrefixCS p cs) then
      (matchToksLen ci rest (cs.drop p.length)).map (· + p.length)
    else none
  | .ws1 :: rest, cs =>
    let w := (cs.takeWhile isWsChar).length
    if w = 0 then none
    else (matchToksLen ci rest (cs.drop w)).map (· + w)
  | .ws0 :: rest, cs =>
    let w := (cs.takeWhile isWsChar).length
    (matchToksLen ci rest (cs.drop w)).map (· + w)

/-- Leftmost match of a token sequence: returns the matched text.  `needWb`
models a leading `\b`; every `\b` in the source precedes a word character, so
the boundary holds exactly when the preceding character is absent or not a
word character.  `prev` is the character before the current position. -/
def scanMatch (ci needWb : Bool) (toks : List PatTok) : Option Char → List Char → Option String
  | prev, cs =>
    let okHere := !needWb || (match prev with | some c => !isWordChar c | none => true)
    match (if okHere then matchToksLen ci toks cs else none), cs with
    | some n, _ => some (String.mk (cs.take n))
    | none, [] => none
    | none, c :: t => scanMatch ci needWb toks (some c) t

/-- Whether a pattern matches anywhere in `s`. -/
def hasPatMatch (ci needWb : Bool) (toks : List PatTok) (s : String) : Bool :=
  (scanMatch ci needWb toks none s.toList).isSome

/-- `SecurityViolation` (the `type` field is one of the source's string tags). -/
structure SecurityViolation where
  type : String
  message : String
  content : String
deriving DecidableEq

/-- `SecurityCheckResult`. -/
structure SecurityCheckResult where
  safe : Bool
  violations : List SecurityViolation

/-- `INJECTION_PATTERNS` from `utils/safety.ts` (all `/i`). -/
def INJECTION_PATTERNS : List (List PatTok) :=
  [[.lit "ignore", .ws1, .lit "previous", .ws1, .lit "instructions"],
   [.lit "execute", .ws1, .lit "command"],
   [.lit "run", .ws1, .lit "code"],
   [.lit "bypass", .ws1, .lit "security"],
   [.lit "override", .ws1, .lit "restrictions"],
   [.lit "disable", .ws1, .lit "validation"],
   [.lit "jailbreak"],
   [.lit "system", .ws1, .lit "prompt"],
   [.lit "administrator", .ws1, .lit "mode"],
   [.lit "god", .ws1, .lit "mode"]]

/-- `FORBIDDEN_KEYWORDS` from `utils/safety.ts`. -/
def FORBIDDEN_KEYWORDS : List String :=
  ["eval", "Function(", "dangerouslySetInnerHTML", "innerHTML", "appendChild",
   "insertAdjacentHTML", "onclick=", "onload=", "fetch(", "axios",
   "XMLHttpRequest", "setTimeout", "setInterval", "setImmediate", "require(",
   "eval(", "constructor", "prototype", "__proto__", "document.write",
   "window.", "global.", "process.", "child_process", "fs.", "path.", "os."]

/-- `detectPromptInjection`: one violation per matching injection pattern,
carrying the matched text. -/
def detectPromptInjection (input : String) : List SecurityViolation :=
  INJECTION_PATTERNS.filterMap (fun p =>
    (scanMatch true false p none input.toList).map (fun m =>
      ⟨"injection", "Detected potential prompt injection: \"" ++ m ++ "\"", m⟩))

/-- `detectForbiddenKeywords`: each keyword is matched case-insensitively with
a leading word boundary (`\b` + escaped keyword). -/
def detectForbiddenKeywords (code : String) : List SecurityViolation :=
  FORBIDDEN_KEYWORDS.filterMap (fun kw =>
    if hasPatMatch true true [.lit kw] code then
      some ⟨"forbidden_keyword", "Found forbidden keyword: \"" ++ kw ++ "\"", kw⟩
    else none)

/-- The token form of `/style\s*=\s*\x7b/`. -/
def stylePatToks : List PatTok :=
  [.lit "style", .ws0, .lit "=", .ws0, .lit (String.mk [Char.ofNat 123])]

/-- `detectInlineStyles` (`/style\s*=\s*\x7b/gi`). -/
def detectInlineStyles (code : String) : List SecurityViolation :=
  if hasPatMatch true false stylePatToks code then
    [⟨"forbidden_keyword", "Inline styles detected (not allowed)", "style=\x7b\x7d"⟩]
  else []

/-- `detectDangerousProps` (`new RegExp(prop + "\\s*=", "i")`). -/
def detectDangerousProps (code : String) : List SecurityViolation :=
  ["dangerouslySetInnerHTML", "onClick", "onChange"].filterMap (fun prop =>
    if hasPatMatch true false [.lit prop, .ws0, .lit "="] code then
      some ⟨"forbidden_keyword", "Dangerous prop detected: \"" ++ prop ++ "\"", prop⟩
    else none)

/-- `performSecurityCheck`: injection scan of the raw input plus the three code
scans; safe iff no violation. -/
def performSecurityCheck (userInput generatedCode : String) : SecurityCheckResult :=
  let violations :=
    detectPromptInjection userInput ++
    detectForbiddenKeywords generatedCode ++
    detectInlineStyles generatedCode ++
    detectDangerousProps generatedCode
  { safe := violations.isEmpty, violations := violations }

/-- `sanitizeInput`: drop control characters, cap at 5000 characters. -/
def sanitizeInput (input : String) : String :=
  strTake (String.mk (input.toList.filter (fun c => !(c.toNat ≤ 31 || c.toNat = 127)))) 5000

/-! ## JSX analysis (`utils/index.ts`) -/

/-- `JSXAnalysisResult`. -/
structure JSXAnalysisResult where
  components : List String
  hasUnwhitelistedComponents : Bool
  hasInlineStyles : Bool
  hasForbiddenKeywords : Bool
  valid : Bool
  errors : List String

/-- `isHTMLElement`. -/
def isHTMLElement (tag : String) : Bool :=
  ["div", "span", "p", "a", "button", "input", "form", "label",
   "h1", "h2", "h3", "h4", "h5", "h6", "ul", "ol", "li",
   "table", "tr", "td", "thead", "tbody", "footer", "header",
   "main", "section", "article", "nav", "aside", "img", "video"].contains (toLowerStr tag)

/-- All matches of `/<(\w+)[\s>]/g`: a `<`, a maximal nonempty word-character
run, then one whitespace-or-`>` character; scanning resumes after the match
(after a failed attempt, at the character following the `<`).  Each step
consumes at least one character, so fuel `length + 1` is never exhausted. -/
def jsxComponentScanF : Nat → List Char → List String
  | 0, _ => []
  | _ + 1, [] => []
  | fuel + 1, c :: rest =>
    if c = '<' then
      let w := rest.takeWhile isWordChar
      match rest.drop w.length with
      | d :: more =>
        if w.length > 0 && (isWsChar d || d = '>') then
          String.mk w :: jsxComponentScanF fuel more
        else jsxComponentScanF fuel rest
      | [] => jsxComponentScanF fuel rest
    else jsxComponentScanF fuel rest

/-- The component-tag matches of a character list. -/
def jsxComponentScan (l : List Char) : List String :=
  jsxComponentScanF (l.length + 1) l

/-- Tag-name characters of `isValidJSXSyntax`'s regex class `[A-Za-z0-9_:-]`. -/
def isTagChar (c : Char) : Bool :=
  c.isAlpha || c.isDigit || c = '_' || c = ':' || c = '-'

/-- All matches of `/<(\/?)([A-Za-z0-9_:-]+)?([^>]*)>/g` as
(isClosing, optional tag name, the `[^>]*` group).  A match runs from a `<` to
the first following `>`; when no `>` remains, no further match exists.
Each step consumes at least one character, so fuel `length + 1` is never
exhausted. -/
def jsxTagScanF : Nat → List Char → List (Bool × Option String × String)
  | 0, _ => []
  | _ + 1, [] => []
  | fuel + 1, c :: cs =>
    if c = '<' then
      let isClosing := cs.head? == some '/'
      let afterSlash := if isClosing then cs.tail else cs
      let nm := afterSlash.takeWhile isTagChar
      let afterName := afterSlash.drop nm.length
      let restChars := afterName.takeWhile (fun d => d ≠ '>')
      match afterName.drop restChars.length with
      | _ :: more =>
        (isClosing, if nm.isEmpty then none else some (String.mk nm), String.mk restChars)
          :: jsxTagScanF fuel more
      | [] => []
    else jsxTagScanF fuel cs

/-- The tag matches of a character list. -/
def jsxTagScan (l : List Char) : List (Bool × Option String × String) :=
  jsxTagScanF (l.length + 1) l

/-- `/\/\s*$/.test(rest)`: after trailing whitespace, `rest` ends in `/`. -/
def endsWithSlashWs (rest : String) : Bool :=
  (rest.toList.reverse.dropWhile isWsChar).head? = some '/'

/-- The tag-stack loop of `isValidJSXSyntax`. -/
def jsxStackRun : List (Bool × Option String × String) → List String → Bool
  | [], stack => stack.isEmpty
  | (isClosing, nmOpt, rest) :: ts, stack =>
    let selfClosing := endsWithSlashWs rest
    match nmOpt with
    | none =>
      if isClosing then
        match stack with
        | top :: stk => if top = "Fragment" then jsxStackRun ts stk else false
        | [] => false
      else if selfClosing then jsxStackRun ts stack
      else jsxStackRun ts ("Fragment" :: stack)
    | some tagName =>
      if isClosing then
        match stack with
        | top :: stk => if top = tagName then jsxStackRun ts stk else false
        | [] => false
      else if selfClosing then jsxStackRun ts stack
      else jsxStackRun ts (tagName :: stack)

/-- `isValidJSXSyntax`. -/
def isValidJSXSyntax (code : String) : Bool :=
  jsxStackRun (jsxTagScan code.toList) []

/-- The component-collection loop of `analyzeJSX`: walks the occurrence list
left to right accumulating the deduplicated component set (insertion order)
and per-occurrence whitelist errors. HTML elements and `Fragment` are skipped. -/
def analyzeScanFold : List String → List String → List String → List String × List String
  | [], comps, errs => (comps, errs)
  | name :: restNames, comps, errs =>
    if isHTMLElement name || name == "Fragment" then analyzeScanFold restNames comps errs
    else
      analyzeScanFold restNames
        (if comps.contains name then comps else comps ++ [name])
        (if !(isComponentWhitelisted name) then
          errs ++ ["Component \"" ++ name ++ "\" is not whitelisted"]
        else errs)

/-- `analyzeJSX` from `utils/index.ts`. -/
def analyzeJSX (code : String) : JSXAnalysisResult :=
  let occs := jsxComponentScan code.toList
  let folded := analyzeScanFold occs [] []
  let comps := folded.1
  let compErrs := folded.2
  let hasInline := hasPatMatch false false stylePatToks code
  let styleErrs := if hasInline then ["Inline styles (style=\x7b\x7d) are not allowed"] else []
  let kwErrs :=
    ["dangerouslySetInnerHTML", "onClick", "eval", "fetch", "setTimeout"].filterMap
      (fun kw => if strIncludes code kw then
        some ("Forbidden keyword detected: \"" ++ kw ++ "\"") else none)
  let syntaxErrs := if !(isValidJSXSyntax code) then ["Invalid JSX syntax"] else []
  let errors := compErrs ++ styleErrs ++ kwErrs ++ syntaxErrs
  { components := comps,
    hasUnwhitelistedComponents := !compErrs.isEmpty,
    hasInlineStyles := hasInline,
    hasForbiddenKeywords := !kwErrs.isEmpty,
    valid := errors.isEmpty,
    errors := errors }

/-- `ValidationService.validateCodeSafety`: forbidden-keyword violations plus
JSX-analysis errors. -/
def validateCodeSafety (code : String) : ValidationResult :=
  let kwErrs := (detectForbiddenKeywords code).map
    (fun v => (⟨"code", v.message, "error"⟩ : ValidationError))
  let jsxAnalysis := analyzeJSX code
  let jsxErrs := if !jsxAnalysis.valid then
      jsxAnalysis.errors.map (fun e => (⟨"jsx", e, "error"⟩ : ValidationError))
    else []
  let errors := kwErrs ++ jsxErrs
  { valid := errors.isEmpty, errors := errors }

/-! ## Intent analysis (`agents/intentAnalyzer.ts`) -/

/-- `GenerationRequest`. -/
structure GenerationRequest where
  message : String
  previousVersionId : Option String := none

/-- The result record of `analyzeIntent` (confidence is an exact rational). -/
structure IntentResult where
  intent : String
  confidence : ℚ
  reasoning : String

/-- `INTENT_KEYWORDS`, in declaration (iteration) order. -/
def INTENT_KEYWORDS : List (String × List String) :=
  [("create", ["create", "build", "design", "make", "new", "generate", "design a", "build a"]),
   ("modify", ["update", "change", "modify", "edit", "add", "remove", "replace"]),
   ("remove", ["delete", "remove", "eliminate", "drop"]),
   ("regenerate", ["regenerate", "redo", "retry", "again", "different version"]),
   ("rollback", ["revert", "rollback", "go back", "restore", "previous"])]

/-- How many of an intent's keywords occur as substrings of the message. -/
def countKeywordMatches (message : String) (kws : List String) : Nat :=
  (kws.filter (fun kw => strIncludes message kw)).length

/-- `generateIntentReasoning` (the `message` parameter is unused in the source too). -/
def generateIntentReasoning (intent : String) (_message : String) (nMatches : Nat) : String :=
  let base :=
    if intent == "create" then "User is requesting a new UI component or layout"
    else if intent == "modify" then "User is requesting changes to existing UI"
    else if intent == "remove" then "User is requesting deletion of components"
    else if intent == "regenerate" then "User is requesting recreation of UI with modifications"
    else "User is requesting restoration of previous version"
  base ++ ". (Keyword matches: " ++ toString nMatches ++ ")"

/-- `analyzeIntent`: injection short-circuit, then keyword vote with
strict-greater updates over `INTENT_KEYWORDS`, then the prior-version
override, confidence `min(maxMatches/3, 1)`. -/
def analyzeIntent (request : GenerationRequest) : IntentResult :=
  let message := toLowerStr request.message
  let _sanitized := sanitizeInput request.message
  match detectPromptInjection message with
  | v :: _ =>
    { intent := "create", confidence := 0,
      reasoning := "Potential security violation detected: " ++ v.message }
  | [] =>
    let st := INTENT_KEYWORDS.foldl (fun (acc : Nat × String) entry =>
      let nMatches := countKeywordMatches message entry.2
      if nMatches > acc.1 then (nMatches, entry.1) else acc) (0, "create")
    let maxMatches := st.1
    let matchingIntent :=
      if request.previousVersionId.isSome && st.2 == "create" &&
         !(strIncludes message "rollback") && !(strIncludes message "regenerate") then
        "modify"
      else st.2
    { intent := matchingIntent,
      confidence := min ((maxMatches : ℚ) / 3) 1,
      reasoning := generateIntentReasoning matchingIntent message maxMatches }

/-- The `{valid, error?}` record of `validateIntentRequirements`. -/
structure IntentValidation where
  valid : Bool
  error : Option String := none

/-- `validateIntentRequirements`. -/
def validateIntentRequirements (intent : String) (request : GenerationRequest) :
    IntentValidation :=
  if intent == "modify" || intent == "regenerate" || intent == "rollback" then
    match request.previousVersionId with
    | none => ⟨false, some ("Intent \"" ++ intent ++ "\" requires previousVersionId")⟩
    | some _ => ⟨true, none⟩
  else if intent == "create" then
    if request.message == "" || (jsTrim request.message).length < 10 then
      ⟨false, some "Create intent requires a descriptive message (min 10 chars)"⟩
    else ⟨true, none⟩
  else ⟨true, none⟩

/-- The record returned by `extractEntities`. -/
structure Entities where
  componentsRequested : List String
  layoutHints : List String
  contentHints : List String

/-- `extractEntities`. -/
def extractEntities (message : String) : Entities :=
  let lowerMessage := toLowerStr message
  { componentsRequested :=
      ["button", "card", "header", "input", "select", "form",
       "modal", "list", "grid", "stack", "alert", "divider", "textarea"].filter
        (fun c => strIncludes lowerMessage c),
    layoutHints :=
      ["horizontal", "vertical", "grid", "row", "column", "center", "flex"].filter
        (fun t => strIncludes lowerMessage t),
    contentHints :=
      ["dark", "light", "compact", "spacious", "minimal", "bold"].filter
        (fun t => strIncludes lowerMessage t) }

/-! ## Plan generation (`agents/planner.ts`)

`uuidv4()` draws are modelled by a supply `u : Nat → String` together with a
running index: the n-th call of the run yields `u n`.  The `defaults` object
literal in `createComponentFromType` evaluates every entry, so one call
consumes eleven draws. -/

/-- `uuidv4().substring(0, 8)` for the draw at index `k`. -/
def uuid8 (u : Nat → String) (k : Nat) : String := strTake (u k) 8

/-- First match of `/"([^"]+)"/`: a nonempty run between two quotes. -/
def quotedScan : List Char → Option String
  | [] => none
  | c :: rest =>
    if c = '"' then
      let cap := rest.takeWhile (fun d => d ≠ '"')
      match rest.drop cap.length with
      | _ :: _ => if cap.isEmpty then quotedScan rest else some (String.mk cap)
      | [] => none
    else quotedScan rest

/-- The `(?:")?([^".,]+)` suffix of the title pattern: optionally consume a
quote, then capture a nonempty run free of `"`, `.`, `,`. -/
def titleCapture (cs : List Char) : Option (List Char) :=
  let attempt := fun (l : List Char) =>
    let cap := l.takeWhile (fun c => !(c = '"' || c = '.' || c = ','))
    if cap.isEmpty then none else some cap
  match cs with
  | '"' :: rest =>
    match attempt rest with
    | some cap => some cap
    | none => attempt cs
  | _ => attempt cs

/-- Backtracking over the greedy `\s+`: try consuming `w, w-1, ..., 1`
whitespace characters. -/
def titleBacktrackWs : Nat → List Char → Option (List Char)
  | 0, _ => none
  | n + 1, afterKw =>
    match titleCapture (afterKw.drop (n + 1)) with
    | some cap => some cap
    | none => titleBacktrackWs n afterKw

/-- First match of `/(?:title|called|named)\s+(?:")?([^".,]+)/i`, returning the
raw capture group. -/
def titleScan : List Char → Option String
  | [] => none
  | c :: rest =>
    let cs := c :: rest
    let kwLen :=
      if litPrefixCI "title".toList cs then some 5
      else if litPrefixCI "called".toList cs then some 6
      else if litPrefixCI "named".toList cs then some 5
      else none
    match kwLen with
    | some n =>
      let afterKw := cs.drop n
      match titleBacktrackWs (afterKw.takeWhile isWsChar).length afterKw with
      | some cap => some (String.mk cap)
      | none => titleScan rest
    | none => titleScan rest

/-- `extractTitleFromMessage`: quoted text, then the title pattern (trimmed),
else the literal default. -/
def extractTitleFromMessage (message : String) : String :=
  match quotedScan message.toList with
  | some q => q
  | none =>
    match titleScan message.toList with
    | some t => jsTrim t
    | none => "Application"

/-- `createComponentFromType`: the `defaults` literal draws one uuid per entry
(eleven draws), then the lowercased type selects an entry or `null`. -/
def createComponentFromType (t : String) (u : Nat → String) (k : Nat) :
    Option CNode × Nat :=
  let typeLower := toLowerStr t
  let btn : CNode := .mk ("button_" ++ uuid8 u k) "Button"
    [("children", .vStr "Click Me"), ("variant", .vStr "primary")] none
  let card : CNode := .mk ("card_" ++ uuid8 u (k + 1)) "Card"
    [("title", .vStr "Card Title")] none
  let header : CNode := .mk ("header_" ++ uuid8 u (k + 2)) "Header"
    [("title", .vStr "Header"), ("showNav", .vBool false)] none
  let input : CNode := .mk ("input_" ++ uuid8 u (k + 3)) "Input"
    [("label", .vStr "Input"), ("type", .vStr "text"), ("placeholder", .vStr "Enter text")] none
  let select : CNode := .mk ("select_" ++ uuid8 u (k + 4)) "Select"
    [("label", .vStr "Select"),
     ("options", .vArr [.vStr "Option 1", .vStr "Option 2", .vStr "Option 3"])] none
  let modal : CNode := .mk ("modal_" ++ uuid8 u (k + 5)) "Modal"
    [("title", .vStr "Modal"), ("open", .vBool true)] none
  let lst : CNode := .mk ("list_" ++ uuid8 u (k + 6)) "List"
    [("items", .vArr [.vStr "Item 1", .vStr "Item 2", .vStr "Item 3"]),
     ("renderItem", .vStr "item")] none
  let grid : CNode := .mk ("grid_" ++ uuid8 u (k + 7)) "Grid"
    [("columns", .vNum 2), ("gap", .vStr "md")] none
  let stack : CNode := .mk ("stack_" ++ uuid8 u (k + 8)) "Stack"
    [("direction", .vStr "vertical"), ("spacing", .vStr "md")] none
  let textarea : CNode := .mk ("textarea_" ++ uuid8 u (k + 9)) "TextArea"
    [("label", .vStr "Message"), ("placeholder", .vStr "Enter text"), ("rows", .vNum 4)] none
  let alert : CNode := .mk ("alert_" ++ uuid8 u (k + 10)) "Alert"
    [("message", .vStr "Alert message"), ("type", .vStr "info")] none
  let res :=
    if typeLower == "button" then some btn
    else if typeLower == "card" then some card
    else if typeLower == "header" then some header
    else if typeLower == "input" then some input
    else if typeLower == "select" then some select
    else if typeLower == "modal" then some modal
    else if typeLower == "list" then some lst
    else if typeLower == "grid" then some grid
    else if typeLower == "stack" then some stack
    else if typeLower == "textarea" then some textarea
    else if typeLower == "alert" then some alert
    else none
  (res, k + 11)

/-- `planFormComponents`: conditional email/password/name inputs then a submit
button, each drawing one uuid when emitted. -/
def planFormComponents (message : String) (u : Nat → String) (k : Nat) :
    List CNode × Nat :=
  let ml := toLowerStr message
  let hasEmail := strIncludes ml "email"
  let l1 : List CNode := if hasEmail then
      [.mk ("input_email_" ++ uuid8 u k) "Input"
        [("label", .vStr "Email"), ("type", .vStr "email"),
         ("placeholder", .vStr "Enter your email")] none]
    else []
  let k1 := if hasEmail then k + 1 else k
  let hasPw := strIncludes ml "password"
  let l2 : List CNode := if hasPw then
      [.mk ("input_password_" ++ uuid8 u k1) "Input"
        [("label", .vStr "Password"), ("type", .vStr "password"),
         ("placeholder", .vStr "Enter your password")] none]
    else []
  let k2 := if hasPw then k1 + 1 else k1
  let hasName := strIncludes ml "name"
  let l3 : List CNode := if hasName then
      [.mk ("input_name_" ++ uuid8 u k2) "Input"
        [("label", .vStr "Name"), ("type", .vStr "text"),
         ("placeholder", .vStr "Enter your name")] none]
    else []
  let k3 := if hasName then k2 + 1 else k2
  let hasSubmit := strIncludes ml "login" || strIncludes ml "form"
  let l4 : List CNode := if hasSubmit then
      [.mk ("button_submit_" ++ uuid8 u k3) "Button"
        [("children", .vStr "Submit"), ("variant", .vStr "primary"),
         ("fullWidth", .vBool true)] none]
    else []
  let k4 := if hasSubmit then k3 + 1 else k3
  (l1 ++ l2 ++ l3 ++ l4, k4)

/-- The requested-components loop of `planComponents`: skip a component whose
type is already present or not named in the message. -/
def addRequested (ml : String) (u : Nat → String) :
    List String → List CNode → Nat → List CNode × Nat
  | [], comps, k => (comps, k)
  | comp :: rest, comps, k =>
    if !(comps.any (fun c => c.type == comp)) && strIncludes ml (toLowerStr comp) then
      match createComponentFromType comp u k with
      | (some component, kNext) => addRequested ml u rest (comps ++ [component]) kNext
      | (none, kNext) => addRequested ml u rest comps kNext
    else addRequested ml u rest comps k

/-- `planComponents`: header, form components, requested components, then the
card-wrapping / default-card step. -/
def planComponents (message : String) (requestedComponents : List String)
    (u : Nat → String) (k : Nat) : List CNode × Nat :=
  let ml := toLowerStr message
  let hasHeader := strIncludes ml "header" || strIncludes ml "title" || strIncludes ml "top"
  let l0 : List CNode := if hasHeader then
      [.mk ("header_" ++ uuid8 u k) "Header"
        [("title", .vStr (extractTitleFromMessage message)),
         ("showNav", .vBool (strIncludes ml "nav"))] none]
    else []
  let k0 := if hasHeader then k + 1 else k
  let hasForm := strIncludes ml "form" || strIncludes ml "login"
  let fc := if hasForm then planFormComponents message u k0 else ([], k0)
  let ar := addRequested ml u requestedComponents (l0 ++ fc.1) fc.2
  let comps := ar.1
  let k2 := ar.2
  if comps.length > 1 && !(strIncludes ml "card") then
    match comps with
    | c0 :: restComps =>
      ([c0, .mk ("card_" ++ uuid8 u k2) "Card" [("title", .vStr "Content")]
          (some (restComps.map Child.node))], k2 + 1)
    | [] => ([], k2)
  else if comps.isEmpty then
    ([.mk ("card_" ++ uuid8 u k2) "Card" [("title", .vStr "Content")] none], k2 + 1)
  else (comps, k2)

/-- `generatePlan`: layout keywords, component planning, fixed intent and
description.  An absent `desiredComponents` falls back to the extracted
entities (an explicitly passed empty list is used as-is, as in JS, where an
empty array is truthy). -/
def generatePlan (userMessage : String) (desiredComponents : Option (List String))
    (u : Nat → String) (k : Nat) : GenerationPlan :=
  let entities := extractEntities userMessage
  let messageLower := toLowerStr userMessage
  let direction := if strIncludes messageLower "horizontal" then "horizontal" else "vertical"
  let spacing :=
    if strIncludes messageLower "spacious" then "lg"
    else if strIncludes messageLower "compact" then "sm"
    else "md"
  let components :=
    (planComponents userMessage (desiredComponents.getD entities.componentsRequested) u k).1
  { intent := "create",
    components := components,
    layout := some { direction := some direction, spacing := some spacing },
    description := some ("Layout with " ++ toString components.length ++
      " components in " ++ direction ++ " direction") }

/-! ## Version store (`services/versionService.ts`) -/

/-- `Explanation` from `types/index.ts`. -/
structure Explanation where
  layoutReasoning : String
  componentSelectionReasoning : List (String × String)
  modificationReasoning : Option String := none
  tradeoffs : List String
  constraints : List String

/-- `DiffResult`. -/
structure DiffResult where
  added : List String
  removed : List String
  modified : List String
  summary : String
deriving DecidableEq

/-- `Version.metadata`. -/
structure VersionMeta where
  intent : String
  componentCount : Nat
  linesOfCode : Nat

/-- `Version`. -/
structure Version where
  id : String
  userMessage : String
  plan : GenerationPlan
  generatedCode : String
  explanation : Explanation
  diffFromPrevious : Option DiffResult := none
  timestamp : Nat
  metadata : VersionMeta

/-- `Omit<Version, 'id'>`: the argument of `saveVersion`. -/
structure VersionInput where
  userMessage : String
  plan : GenerationPlan
  generatedCode : String
  explanation : Explanation
  diffFromPrevious : Option DiffResult := none
  timestamp : Nat
  metadata : VersionMeta

/-- `{...version, id}`. -/
def VersionInput.withId (v : VersionInput) (id : String) : Version :=
  { id := id, userMessage := v.userMessage, plan := v.plan,
    generatedCode := v.generatedCode, explanation := v.explanation,
    diffFromPrevious := v.diffFromPrevious, timestamp := v.timestamp,
    metadata := v.metadata }

/-- The `VersionService` state: the `Map` is an insertion-ordered association
list (JS `Map` semantics), plus the explicit order list. -/
structure VStore where
  versions : List (String × Version) := []
  versionOrder : List String := []

/-- JS `Map.set`: replace in place when the key exists, else append. -/
def mapSet (m : List (String × Version)) (k : String) (v : Version) :
    List (String × Version) :=
  if m.any (fun e => e.1 == k) then m.map (fun e => if e.1 == k then (k, v) else e)
  else m ++ [(k, v)]

/-- JS `Map.delete` (a `Map` holds each key at most once). -/
def mapDelete (m : List (String × Version)) (k : String) : List (String × Version) :=
  m.filter (fun e => e.1 != k)

/-- `saveVersion`: assign the id, append to both structures, then evict the
oldest entry when the order list exceeds 50. -/
def saveVersion (s : VStore) (version : VersionInput) (id : String) : Version × VStore :=
  let fullVersion := version.withId id
  let versions1 := mapSet s.versions id fullVersion
  let order1 := s.versionOrder ++ [id]
  if order1.length > 50 then
    match order1 with
    | oldestId :: restOrder =>
      (fullVersion, { versions := mapDelete versions1 oldestId, versionOrder := restOrder })
    | [] => (fullVersion, { versions := versions1, versionOrder := order1 })
  else (fullVersion, { versions := versions1, versionOrder := order1 })

/-- `getVersion` (`null` becomes `none`). -/
def getVersion (s : VStore) (id : String) : Option Version :=
  s.versions.lookup id

/-- `getAllVersions`: order ids mapped through the map, dropping misses. -/
def getAllVersions (s : VStore) : List Version :=
  s.versionOrder.filterMap (fun id => s.versions.lookup id)

/-- `getVersionHistory`: the latest `limit` versions in chronological order. -/
def getVersionHistory (s : VStore) (limit : Nat) : List Version :=
  (((getAllVersions s).reverse).take limit).reverse

/-- `deleteVersion`. -/
def deleteVersion (s : VStore) (id : String) : Bool × VStore :=
  if s.versions.any (fun e => e.1 == id) then
    (true, { versions := mapDelete s.versions id,
             versionOrder := s.versionOrder.filter (fun vid => vid != id) })
  else (false, s)

/-- `getVersionCount` (`Map.size`). -/
def getVersionCount (s : VStore) : Nat := s.versions.length

/-- `versionExists` (`Map.has`). -/
def versionExists (s : VStore) (id : String) : Bool :=
  s.versions.any (fun e => e.1 == id)

/-- `getAdjacentVersion`. -/
def getAdjacentVersion (s : VStore) (currentId : String) (direction : String) :
    Option Version :=
  match s.versionOrder.indexOf? currentId with
  | none => none
  | some index =>
    let nextIndex : Int := if direction == "next" then (index : Int) + 1 else (index : Int) - 1
    if nextIndex < 0 || (s.versionOrder.length : Int) ≤ nextIndex then none
    else match s.versionOrder.get? nextIndex.toNat with
      | some vid => s.versions.lookup vid
      | none => none

/-- `clear`. -/
def clearStore (_s : VStore) : VStore := { versions := [], versionOrder := [] }

/-! ## Diff engine (`utils/patching.ts`) -/

/-- All matches of `/<(\w+)/g`: the maximal nonempty word run after each `<`;
scanning resumes after the run.  Each step consumes at least one character, so
fuel `length + 1` is never exhausted. -/
def tagScanComponentsF : Nat → List Char → List String
  | 0, _ => []
  | _ + 1, [] => []
  | fuel + 1, c :: rest =>
    if c = '<' then
      let w := rest.takeWhile isWordChar
      if w.length > 0 then String.mk w :: tagScanComponentsF fuel (rest.drop w.length)
      else tagScanComponentsF fuel rest
    else tagScanComponentsF fuel rest

/-- The tag-opening matches of a character list. -/
def tagScanComponents (l : List Char) : List String :=
  tagScanComponentsF (l.length + 1) l

/-- JS `Set` construction: first-occurrence deduplication, insertion order. -/
def setAdd (seen : List String) (x : String) : List String :=
  if seen.contains x then seen else seen ++ [x]

/-- The `Set` of a list, as a deduplicated list in insertion order. -/
def setOfList (l : List String) : List String := l.foldl setAdd []

/-- `calculateDiff`: line-set differences with trimmed output capped at 10,
tag names occurring on both sides as `modified`, summary over the untruncated
counts. -/
def calculateDiff (oldCode newCode : String) : DiffResult :=
  let oldLines := splitLines oldCode
  let newLines := splitLines newCode
  let added := (newLines.filter (fun line => !(oldLines.contains line))).map jsTrim
  let removed := (oldLines.filter (fun line => !(newLines.contains line))).map jsTrim
  let oldComponents := setOfList (tagScanComponents oldCode.toList)
  let newComponents := setOfList (tagScanComponents newCode.toList)
  let modified := newComponents.filter (fun comp => oldComponents.contains comp)
  let summary := "Added " ++ toString added.length ++ " lines, removed " ++
    toString removed.length ++ " lines, modified " ++ toString modified.length ++
    " components"
  { added := added.take 10, removed := removed.take 10,
    modified := modified, summary := summary }

/-! ## Orchestration (`index.ts`)

`agents/generator.ts` is not part of the analysed sources.  Modelled from the
spec: the CodeEmitter (`generateJSX`, "serializes a validated plan into markup
text") and `extractMetadata` (component count and line count of the markup)
are arbitrary pure functions passed as parameters, so every theorem below
holds for the real emitter.  `generateExplanation` (present in
`agents/explainer.ts`) is likewise passed as a parameter: its output never
influences control flow — the source recovers its failures with a default. -/

/-- The response of `POST /api/generate`, as structured data. -/
inductive GenResult where
  | invalidRequest
  | invalidIntent (error : String)
  | invalidPlan (errors : List ValidationError)
  | securityFailed (violations : List SecurityViolation)
  | codeSafetyFailed (errors : List ValidationError)
  | success (version : Version) (intentConfidence : ℚ)

/-- The `/api/generate` pipeline over an explicit store state. -/
def generate (generateJSX : GenerationPlan → String)
    (extractMetadata : String → Nat × Nat)
    (generateExplanation : String → GenerationPlan → String → Explanation)
    (u : Nat → String) (newId : String) (now : Nat)
    (req : GenerationRequest) (s : VStore) : GenResult × VStore :=
  if req.message == "" || (jsTrim req.message).length == 0 then (.invalidRequest, s)
  else
    let intentResult := analyzeIntent req
    let intentValidation := validateIntentRequirements intentResult.intent req
    if !intentValidation.valid then (.invalidIntent (intentValidation.error.getD ""), s)
    else
      let plan := generatePlan req.message none u 0
      let planValidation := validatePlan plan
      if !planValidation.valid then (.invalidPlan planValidation.errors, s)
      else
        let generatedCode := generateJSX plan
        let metadata := extractMetadata generatedCode
        let securityCheck := performSecurityCheck req.message generatedCode
        if !securityCheck.safe then (.securityFailed securityCheck.violations, s)
        else
          let codeSafetyValidation := validateCodeSafety generatedCode
          if !codeSafetyValidation.valid then
            (.codeSafetyFailed codeSafetyValidation.errors, s)
          else
            let explanation := generateExplanation req.message plan generatedCode
            let diffFromPrevious :=
              match req.previousVersionId with
              | some pid => (getVersion s pid).map
                  (fun pv => calculateDiff pv.generatedCode generatedCode)
              | none => none
            let version : VersionInput :=
              { userMessage := req.message, plan := plan,
                generatedCode := generatedCode, explanation := explanation,
                diffFromPrevious := diffFromPrevious, timestamp := now,
                metadata := { intent := intentResult.intent,
                              componentCount := metadata.1,
                              linesOfCode := metadata.2 } }
            let saved := saveVersion s version newId
            (.success saved.1 intentResult.confidence, saved.2)

/-- The response of `POST /api/rollback/:id`. -/
inductive RollbackResult where
  | notFound
  | ok (version : Version)

/-- The `/api/rollback/:id` handler over an explicit store state. -/
def rollback (vid newId : String) (now : Nat) (s : VStore) : RollbackResult × VStore :=
  match getVersion s vid with
  | none => (.notFound, s)
  | some version =>
    let newVersion : VersionInput :=
      { userMessage := "[ROLLBACK] " ++ version.userMessage,
        plan := version.plan,
        generatedCode := version.generatedCode,
        explanation := version.explanation,
        diffFromPrevious := none,
        timestamp := now,
        metadata := { intent := "rollback",
                      componentCount := version.metadata.componentCount,
                      linesOfCode := version.metadata.linesOfCode } }
    let saved := saveVersion s newVersion newId
    (.ok saved.1, saved.2)

/-! ## Derived definitions used by the theorems -/

mutual
/-- Erase every node id in a subtree (ids embed fresh uuid draws; everything
else is determined by the message). -/
def eNode : CNode → CNode
  | .mk _ t p none => .mk "" t p none
  | .mk _ t p (some cs) => .mk "" t p (some (eChildren cs))
/-- Erase ids across a children list. -/
def eChildren : List Child → List Child
  | [] => []
  | .node n :: r => .node (eNode n) :: eChildren r
  | .text s :: r => .text s :: eChildren r
end

/-- Erase ids across a forest. -/
def eList (l : List CNode) : List CNode := l.map eNode

/-- Erase ids across a plan. -/
def ePlan (p : GenerationPlan) : GenerationPlan :=
  { intent := p.intent, components := eList p.components,
    layout := p.layout, description := p.description }

/-- The header / form / requested stages of `planComponents`, before the final
card-wrapping step (split out to reason about the stages separately). -/
def preComps (message : String) (requestedComponents : List String)
    (u : Nat → String) (k : Nat) : List CNode × Nat :=
  let ml := toLowerStr message
  let hasHeader := strIncludes ml "header" || strIncludes ml "title" || strIncludes ml "top"
  let l0 : List CNode := if hasHeader then
      [.mk ("header_" ++ uuid8 u k) "Header"
        [("title", .vStr (extractTitleFromMessage message)),
         ("showNav", .vBool (strIncludes ml "nav"))] none]
    else []
  let k0 := if hasHeader then k + 1 else k
  let hasForm := strIncludes ml "form" || strIncludes ml "login"
  let fc := if hasForm then planFormComponents message u k0 else ([], k0)
  addRequested ml u requestedComponents (l0 ++ fc.1) fc.2

/-- The final card-wrapping / default-card step of `planComponents`. -/
def wrapStep (ml : String) (u : Nat → String) (pr : List CNode × Nat) :
    List CNode × Nat :=
  let comps := pr.1
  let k2 := pr.2
  if comps.length > 1 && !(strIncludes ml "card") then
    match comps with
    | c0 :: restComps =>
      ([c0, .mk ("card_" ++ uuid8 u k2) "Card" [("title", .vStr "Content")]
          (some (restComps.map Child.node))], k2 + 1)
    | [] => ([], k2)
  else if comps.isEmpty then
    ([.mk ("card_" ++ uuid8 u k2) "Card" [("title", .vStr "Content")] none], k2 + 1)
  else (comps, k2)

/-- Fold `saveVersion` over a list of (fresh id, version body) pairs. -/
def appendAll (s : VStore) (items : List (String × VersionInput)) : VStore :=
  items.foldl (fun st it => (saveVersion st it.2 it.1).2) s

/-- The store holding exactly the last 50 of `items`, oldest first. -/
def storeOfItems (items : List (String × VersionInput)) : VStore :=
  { versions := (items.drop (items.length - 50)).map (fun it => (it.1, it.2.withId it.1)),
    versionOrder := (items.map Prod.fst).drop (items.length - 50) }

/-- The `VersionService` representation invariant: no duplicate ids, the map
keys (in insertion order) coincide with the order list, every stored version
carries its own key as `id`, and at most 50 entries. -/
def StoreInv (s : VStore) : Prop :=
  s.versionOrder.Nodup ∧
  s.versions.map Prod.fst = s.versionOrder ∧
  (∀ e ∈ s.versions, e.2.id = e.1) ∧
  s.versionOrder.length ≤ 50

/-! ### Concrete fixtures for counterexamples and witnesses -/

/-- A plan whose only top-level node is a whitelisted `Card` that nests a
non-whitelisted `CustomWidget` child. -/
def nestedWidgetPlan : GenerationPlan :=
  { intent := "create",
    components := [CNode.mk "card_1" "Card" [("title", PVal.vStr "Content")]
      (some [Child.node (CNode.mk "w1" "CustomWidget" [] none)])],
    layout := some { direction := some "vertical", spacing := some "md" },
    description := some "nested widget demo" }

/-- A minimal valid plan: one `Card` with a string title. -/
def fixturePlan : GenerationPlan :=
  { intent := "create",
    components := [CNode.mk "c1" "Card" [("title", PVal.vStr "Content")] none],
    layout := some { direction := some "vertical", spacing := some "md" },
    description := some "fixture" }

/-- A fixed explanation value for version fixtures. -/
def explanation0 : Explanation := ⟨"layout", [], none, [], []⟩

/-- A version body parameterised by an index. -/
def fixtureInput (n : Nat) : VersionInput :=
  { userMessage := "message " ++ toString n, plan := fixturePlan,
    generatedCode := "<Card />", explanation := explanation0,
    timestamp := n, metadata := ⟨"create", 1, 1⟩ }

/-- 55 distinct-id fixture items. -/
def items55 : List (String × VersionInput) :=
  (List.range 55).map (fun n => ("id" ++ toString n, fixtureInput n))

/-- A store holding one version under id `v1`. -/
def storeOne : VStore := (saveVersion {} (fixtureInput 0) "v1").2

/-- An emitter whose markup trips the forbidden-keyword scan. -/
def emitterEval : GenerationPlan → String := fun _ => "eval(x)"

/-- A metadata extractor fixture (component count 1, line count). -/
def metaFixture : String → Nat × Nat := fun c => (1, (splitLines c).length)

/-- An explanation generator fixture. -/
def explFixture : String → GenerationPlan → String → Explanation := fun _ _ _ => explanation0

/-- A constant uuid supply. -/
def supplyA : Nat → String := fun _ => "aaaaaaaa"

/-- Another constant uuid supply, distinct from `supplyA`. -/
def supplyB : Nat → String := fun _ => "bbbbbbbb"

/-- A benign generation request. -/
def reqSimple : GenerationRequest := ⟨"create a simple page please", none⟩

/-! ## General lemmas -/

theorem contains_eq_decide_mem (l : List String) (a : String) :
    l.contains a = decide (a ∈ l) := by
  by_cases h : a ∈ l <;> simp [h]

theorem mem_foldl_setAdd (x : String) :
    ∀ (l acc : List String), x ∈ l.foldl setAdd acc ↔ x ∈ acc ∨ x ∈ l := by
  intro l
  induction l with
  | nil => intro acc; simp
  | cons a t ih =>
    intro acc
    simp only [List.foldl_cons]
    rw [ih]
    unfold setAdd
    by_cases h : acc.contains a
    · rw [if_pos h]
      have ha : a ∈ acc := by simpa using h
      constructor
      · rintro (h1 | h1)
        · exact Or.inl h1
        · exact Or.inr (List.mem_cons_of_mem _ h1)
      · rintro (h1 | h1)
        · exact Or.inl h1
        · rcases List.mem_cons.mp h1 with rfl | h2
          · exact Or.inl ha
          · exact Or.inr h2
    · rw [if_neg h]
      simp only [List.mem_append, List.mem_singleton, List.mem_cons]
      tauto

theorem mem_setOfList (x : String) (l : List String) : x ∈ setOfList l ↔ x ∈ l := by
  unfold setOfList
  rw [mem_foldl_setAdd]
  simp

theorem lookup_isSome_iff_any {β : Type} (k : String) :
    ∀ m : List (String × β), (m.lookup k).isSome = m.any (fun e => e.1 == k) := by
  intro m
  induction m with
  | nil => rfl
  | cons e t ih =>
    rcases e with ⟨a, b⟩
    simp only [List.lookup, List.any_cons]
    by_cases h : k = a
    · subst h
      simp
    · have h1 : (k == a) = false := by simpa using h
      have h2 : (a == k) = false := by simpa using Ne.symm h
      simp [h1, h2, ih]

/-! ## C6 and C7: the diff engine -/

/-- C6 counterexample: on `diff("<Card/>", "<Card/><Button/>")` the claim
asserts empty `removed` and empty `modified`, but the code reports the old
single line `"<Card/>"` as removed (the new file's only line differs from it)
and `Card` as modified (the tag occurs on both sides). -/
theorem claim_C6_counterexample :
    ¬((calculateDiff "<Card/>" "<Card/><Button/>").removed = [] ∧
      (calculateDiff "<Card/>" "<Card/><Button/>").modified = []) := by
  decide

/-- C6 (amended): `diff("<Card/>", "<Card/><Button/>")` yields
`added = ["<Card/><Button/>"]` (the single new line, which contains the
Button), `removed = ["<Card/>"]`, `modified = ["Card"]`, and a summary
counting one line each way and one modified component. -/
theorem claim_C6_amended :
    calculateDiff "<Card/>" "<Card/><Button/>" =
      { added := ["<Card/><Button/>"], removed := ["<Card/>"], modified := ["Card"],
        summary := "Added 1 lines, removed 1 lines, modified 1 components" } := by
  decide

/-- C7: `calculateDiff` returns as `added` the trimmed new-code lines absent
from the old code and as `removed` the trimmed old-code lines absent from the
new code, each capped at the first 10 entries, while the summary reports the
untruncated counts; `modified` contains exactly the tag names that open an
element (`<Name`) in both the old and the new code. -/
theorem claim_C7 (oldCode newCode : String) :
    (calculateDiff oldCode newCode).added =
      ((((splitLines newCode).filter
          (fun l => decide (l ∉ splitLines oldCode))).map jsTrim).take 10) ∧
    (calculateDiff oldCode newCode).removed =
      ((((splitLines oldCode).filter
          (fun l => decide (l ∉ splitLines newCode))).map jsTrim).take 10) ∧
    (∀ t, t ∈ (calculateDiff oldCode newCode).modified ↔
      (t ∈ tagScanComponents oldCode.toList ∧ t ∈ tagScanComponents newCode.toList)) ∧
    (calculateDiff oldCode newCode).summary =
      "Added " ++
        toString (((splitLines newCode).filter
          (fun l => decide (l ∉ splitLines oldCode))).length) ++
      " lines, removed " ++
        toString (((splitLines oldCode).filter
          (fun l => decide (l ∉ splitLines newCode))).length) ++
      " lines, modified " ++
        toString ((calculateDiff oldCode newCode).modified.length) ++
      " components" := by
  have hfun : ∀ l1 : List String, (fun l => !(l1.contains l)) =
      (fun l => decide (l ∉ l1)) := by
    intro l1
    funext l
    rw [contains_eq_decide_mem]
    by_cases h : l ∈ l1 <;> simp [h]
  refine ⟨?_, ?_, ?_, ?_⟩
  · simp only [calculateDiff, hfun]
  · simp only [calculateDiff, hfun]
  · intro t
    simp only [calculateDiff]
    rw [List.mem_filter]
    rw [mem_setOfList, contains_eq_decide_mem]
    constructor
    · rintro ⟨h1, h2⟩
      refine ⟨?_, h1⟩
      have := of_decide_eq_true h2
      exact (mem_setOfList _ _).mp this
    · rintro ⟨h1, h2⟩
      exact ⟨h2, decide_eq_true ((mem_setOfList _ _).mpr h1)⟩
  · simp only [calculateDiff, hfun, List.length_map]

/-! ## C9: layout direction and spacing -/

/-- C9 counterexample: the claim gives "compact" precedence (`sm`) when both
"compact" and "spacious" occur, but the code checks "spacious" first and
yields `lg`. -/
theorem claim_C9_counterexample :
    strIncludes (toLowerStr "make it compact and spacious") "compact" = true ∧
    strIncludes (toLowerStr "make it compact and spacious") "spacious" = true ∧
    ((generatePlan "make it compact and spacious" none supplyA 0).layout.map
      LayoutHints.spacing) ≠ some (some "sm") ∧
    ((generatePlan "make it compact and spacious" none supplyA 0).layout.map
      LayoutHints.spacing) = some (some "lg") := by
  refine ⟨by decide, by decide, ?_, ?_⟩ <;> decide

/-- C9 (amended): `generatePlan` sets `layout.direction` to `horizontal` iff
the lowercased message contains "horizontal" (else `vertical`), and sets
`layout.spacing` with "spacious" (`lg`) checked before "compact" (`sm`),
defaulting to `md`; a message containing both keywords therefore gets `lg`. -/
theorem claim_C9_amended (m : String) (d : Option (List String))
    (u : Nat → String) (k : Nat) :
    (generatePlan m d u k).layout = some
      { direction := some (if strIncludes (toLowerStr m) "horizontal"
          then "horizontal" else "vertical"),
        spacing := some (if strIncludes (toLowerStr m) "spacious" then "lg"
          else if strIncludes (toLowerStr m) "compact" then "sm" else "md") } := by
  rfl

/-! ## C2: plan-validator whitelist soundness -/

theorem propEntryErrors_nil (cn : String) (props : List (String × PVal))
    (pn : String) (ps : PropSchema)
    (h : propEntryErrors cn props (pn, ps) = []) :
    (ps.required = true → (props.lookup pn).isSome = true) ∧
    (∀ v, props.lookup pn = some v → validatePropValue v ps = none) := by
  unfold propEntryErrors at h
  rw [List.append_eq_nil] at h
  obtain ⟨h1, h2⟩ := h
  constructor
  · intro hreq
    by_contra hnone
    have hany : props.any (fun p => p.1 == pn) = false := by
      rw [← lookup_isSome_iff_any]
      exact Bool.not_eq_true _ ▸ (by simpa using hnone)
    rw [hreq, hany] at h1
    simp at h1
  · intro v hv
    rw [hv] at h2
    by_contra hbad
    obtain ⟨msg, hmsg⟩ := Option.ne_none_iff_exists'.mp hbad
    simp [hmsg] at h2

theorem validateComponentProps_nil (cn : String) (props : List (String × PVal))
    (sch : ComponentSchema) (hs : getComponentSchema cn = some sch)
    (h : validateComponentProps cn props = []) :
    ∀ pn ps, (pn, ps) ∈ sch.props →
      (ps.required = true → (props.lookup pn).isSome = true) ∧
      (∀ v, props.lookup pn = some v → validatePropValue v ps = none) := by
  intro pn ps hmem
  unfold validateComponentProps at h
  rw [hs] at h
  rw [List.flatten_eq_nil_iff] at h
  exact propEntryErrors_nil cn props pn ps
    (h _ (List.mem_map_of_mem (propEntryErrors cn props) hmem))

theorem validatePlan_sound (plan : GenerationPlan)
    (h : (validatePlan plan).valid = true) :
    ∀ c ∈ plan.components, isComponentWhitelisted c.type = true ∧
      validateComponentProps c.type c.props = [] := by
  intro c hc
  simp only [validatePlan, List.isEmpty_iff] at h
  rw [List.append_eq_nil, List.append_eq_nil] at h
  have hcomp := h.1.2
  rw [List.flatten_eq_nil_iff] at hcomp
  have hc2 := hcomp _ (List.mem_map_of_mem _ hc)
  by_cases hw : isComponentWhitelisted c.type
  · refine ⟨hw, ?_⟩
    rw [if_neg (by simp [hw])] at hc2
    exact hc2
  · rw [if_pos (by simp [hw])] at hc2
    simp at hc2

/-- C2 counterexample: a plan whose top-level `Card` nests a
`CustomWidget` child is accepted by `validatePlan` (`valid = true`), yet the
nested node's type is not in the whitelist — `validatePlan` never descends
into `children`, so the claim fails for nodes below the top level. -/
theorem claim_C2_counterexample :
    (validatePlan nestedWidgetPlan).valid = true ∧
    "CustomWidget" ∈ (collectNodes nestedWidgetPlan.components).map CNode.type ∧
    isComponentWhitelisted "CustomWidget" = false := by
  refine ⟨by decide, ?_, by decide⟩
  simp [collectNodes, nestedWidgetPlan, collectNode, collectChildren, CNode.type]

/-- C2 (amended): for every plan accepted by `validatePlan`, every TOP-LEVEL
`ComponentNode` has a whitelisted type, every required prop of its schema is
present, and every present schema-declared prop passes the type check
(`null` values pass vacuously).  Nodes nested inside `children` arrays are
not examined by `validatePlan`. -/
theorem claim_C2_amended (plan : GenerationPlan)
    (h : (validatePlan plan).valid = true) :
    ∀ c ∈ plan.components, isComponentWhitelisted c.type = true ∧
      ∃ sch, getComponentSchema c.type = some sch ∧
        ∀ pn ps, (pn, ps) ∈ sch.props →
          (ps.required = true → (c.props.lookup pn).isSome = true) ∧
          (∀ v, c.props.lookup pn = some v → validatePropValue v ps = none) := by
  intro c hc
  obtain ⟨hw, hvcp⟩ := validatePlan_sound plan h c hc
  have hsome : (getComponentSchema c.type).isSome = true := by
    unfold getComponentSchema
    rw [lookup_isSome_iff_any]
    exact hw
  obtain ⟨sch, hsch⟩ := Option.isSome_iff_exists.mp hsome
  exact ⟨hw, sch, hsch, validateComponentProps_nil c.type c.props sch hsch hvcp⟩

/-- C2 witness: the single-`Card` fixture plan is accepted, and the amended
conclusion holds for it. -/
theorem claim_C2_witness :
    (validatePlan fixturePlan).valid = true ∧
    (∀ c ∈ fixturePlan.components, isComponentWhitelisted c.type = true ∧
      ∃ sch, getComponentSchema c.type = some sch ∧
        ∀ pn ps, (pn, ps) ∈ sch.props →
          (ps.required = true → (c.props.lookup pn).isSome = true) ∧
          (∀ v, c.props.lookup pn = some v → validatePropValue v ps = none)) :=
  ⟨by decide, claim_C2_amended fixturePlan (by decide)⟩

/-! ## Version-store lemmas -/

theorem any_key_eq_decide (k : String) :
    ∀ m : List (String × Version),
      (m.any fun e => e.1 == k) = decide (k ∈ m.map Prod.fst) := by
  intro m
  induction m with
  | nil => simp
  | cons e t ih =>
    rcases e with ⟨a, b⟩
    by_cases h : a = k
    · subst h
      simp
    · have h1 : (a == k) = false := by simpa using h
      simp [h1, ih, Ne.symm h]

theorem mapSet_of_not_mem (k : String) (v : Version) (m : List (String × Version))
    (h : k ∉ m.map Prod.fst) : mapSet m k v = m ++ [(k, v)] := by
  unfold mapSet
  rw [if_neg]
  rw [any_key_eq_decide]
  simpa using h

theorem mapDelete_cons_self (a : String) (b : Version) (rest : List (String × Version))
    (h : ∀ e ∈ rest, e.1 ≠ a) : mapDelete ((a, b) :: rest) a = rest := by
  unfold mapDelete
  rw [List.filter_cons]
  have : ((a, b).1 != a) = false := by simp
  rw [this]
  simp only [Bool.false_eq_true, if_false]
  exact List.filter_eq_self.mpr (fun e he => by simpa using h e he)

theorem lookup_of_not_mem (k : String) :
    ∀ m : List (String × Version), k ∉ m.map Prod.fst → m.lookup k = none := by
  intro m
  induction m with
  | nil => simp
  | cons e t ih =>
    rcases e with ⟨a, b⟩
    intro h
    simp only [List.map_cons, List.mem_cons] at h
    push_neg at h
    have h1 : (k == a) = false := by simpa using h.1
    simp [List.lookup, h1, ih h.2]

theorem lookup_append_left_none (k : String) (m2 : List (String × Version)) :
    ∀ m1 : List (String × Version), k ∉ m1.map Prod.fst →
      (m1 ++ m2).lookup k = m2.lookup k := by
  intro m1
  induction m1 with
  | nil => simp
  | cons e t ih =>
    rcases e with ⟨a, b⟩
    intro h
    simp only [List.map_cons, List.mem_cons] at h
    push_neg at h
    have h1 : (k == a) = false := by simpa using h.1
    simp [List.lookup, h1, ih h.2]

theorem lookup_mapDelete_ne (k del : String) (hne : k ≠ del) :
    ∀ m : List (String × Version), (mapDelete m del).lookup k = m.lookup k := by
  intro m
  induction m with
  | nil => rfl
  | cons e t ih =>
    rcases e with ⟨a, b⟩
    unfold mapDelete at ih ⊢
    rw [List.filter_cons]
    by_cases h : a = del
    · subst h
      have : ((a, b).1 != a) = false := by simp
      rw [this]
      have h1 : (k == a) = false := by simpa using hne
      simp only [Bool.false_eq_true, if_false, List.lookup, h1, cond_false]
      exact ih
    · have : ((a, b).1 != del) = true := by simpa using h
      rw [this]
      simp only [if_true, List.lookup]
      by_cases h2 : k = a
      · subst h2
        simp
      · have h3 : (k == a) = false := by simpa using h2
        simp [h3, ih]

theorem filterMap_lookup_congr (a : String) (b : Version)
    (t : List (String × Version)) :
    ∀ keys : List String, (∀ x ∈ keys, x ≠ a) →
      keys.filterMap (fun id => (((a, b) :: t).lookup id)) =
      keys.filterMap (fun id => t.lookup id) := by
  intro keys
  induction keys with
  | nil => simp
  | cons x xs ih =>
    intro h
    have h1 : (x == a) = false := by simpa using h x (List.mem_cons_self x xs)
    have hl : List.lookup x ((a, b) :: t) = List.lookup x t := by
      simp [List.lookup, h1]
    simp only [List.filterMap_cons]
    rw [hl, ih (fun y hy => h y (List.mem_cons_of_mem _ hy))]

theorem filterMap_lookup_pairs :
    ∀ m : List (String × Version), (m.map Prod.fst).Nodup →
      (m.map Prod.fst).filterMap (fun id => m.lookup id) = m.map Prod.snd := by
  intro m
  induction m with
  | nil => simp
  | cons e t ih =>
    rcases e with ⟨a, b⟩
    intro hnd
    have hhead : List.lookup a ((a, b) :: t) = some b := by simp [List.lookup]
    simp only [List.map_cons, List.filterMap_cons, hhead]
    have hnotin : a ∉ t.map Prod.fst := (List.nodup_cons.mp hnd).1
    rw [filterMap_lookup_congr a b t (t.map Prod.fst)
      (fun x hx => fun hxa => hnotin (hxa ▸ hx))]
    rw [ih (List.nodup_cons.mp hnd).2]

theorem lookup_map_replace (k : String) (v : Version) :
    ∀ m : List (String × Version), (m.any fun e => e.1 == k) = true →
      (m.map (fun e => if e.1 == k then (k, v) else e)).lookup k = some v := by
  intro m
  induction m with
  | nil => intro h; simp at h
  | cons e t ih =>
    intro hany
    rcases e with ⟨a, b⟩
    by_cases h : a = k
    · subst h
      simp only [List.map_cons]
      rw [if_pos (show (((a, b) : String × Version).1 == a) = true by simp)]
      simp [List.lookup]
    · have h1 : (a == k) = false := by simpa using h
      have h2 : (k == a) = false := by simpa using Ne.symm h
      simp only [List.any_cons, h1, Bool.false_or] at hany
      simp only [List.map_cons]
      rw [if_neg (show ¬((((a, b) : String × Version).1 == k) = true) by simp [h1])]
      simp only [List.lookup, h2, cond_false]
      exact ih hany

theorem lookup_mapSet_self (m : List (String × Version)) (k : String) (v : Version) :
    (mapSet m k v).lookup k = some v := by
  unfold mapSet
  split
  · rename_i hany
    exact lookup_map_replace k v m hany
  · rename_i hany
    have hfalse : (m.any fun e => e.1 == k) = false := Bool.eq_false_iff.mpr hany
    have hnot : k ∉ m.map Prod.fst := by
      rw [any_key_eq_decide] at hfalse
      exact of_decide_eq_false hfalse
    rw [lookup_append_left_none k _ m hnot]
    simp [List.lookup]

theorem saveVersion_small (s : VStore) (vi : VersionInput) (id : String)
    (h : s.versionOrder.length + 1 ≤ 50) (hfresh : id ∉ s.versions.map Prod.fst) :
    (saveVersion s vi id).2 =
      { versions := s.versions ++ [(id, vi.withId id)],
        versionOrder := s.versionOrder ++ [id] } := by
  simp only [saveVersion]
  rw [mapSet_of_not_mem _ _ _ hfresh]
  rw [if_neg (by simp only [List.length_append, List.length_cons, List.length_nil]; omega)]

theorem saveVersion_evict (s : VStore) (vi : VersionInput) (id : String)
    (o : String) (rest : List String)
    (horder : s.versionOrder = o :: rest) (h : 50 ≤ s.versionOrder.length)
    (hfresh : id ∉ s.versions.map Prod.fst) :
    (saveVersion s vi id).2 =
      { versions := mapDelete (s.versions ++ [(id, vi.withId id)]) o,
        versionOrder := rest ++ [id] } := by
  simp only [saveVersion]
  rw [mapSet_of_not_mem _ _ _ hfresh, horder]
  rw [horder] at h
  simp only [List.length_cons] at h
  rw [if_pos (by simp only [List.cons_append, List.length_append, List.length_cons,
    List.length_nil]; omega)]
  rfl

theorem map_fst_pairFn (l : List (String × VersionInput)) :
    (l.map (fun it => (it.1, it.2.withId it.1))).map Prod.fst = l.map Prod.fst := by
  rw [List.map_map]
  rfl

theorem saveVersion_storeOf (items : List (String × VersionInput))
    (id : String) (vi : VersionInput)
    (hnd : (items.map Prod.fst).Nodup) (hfresh : id ∉ items.map Prod.fst) :
    (saveVersion (storeOfItems items) vi id).2 = storeOfItems (items ++ [(id, vi)]) := by
  have hkeys : (storeOfItems items).versions.map Prod.fst =
      (items.map Prod.fst).drop (items.length - 50) := by
    show ((items.drop (items.length - 50)).map _).map Prod.fst = _
    rw [map_fst_pairFn, List.map_drop]
  have hfresh2 : id ∉ (storeOfItems items).versions.map Prod.fst := by
    rw [hkeys]
    intro hmem
    exact hfresh (List.mem_of_mem_drop hmem)
  rcases Nat.lt_or_ge items.length 50 with hlen | hlen
  · have hd : items.length - 50 = 0 := by omega
    have hd' : (items ++ [(id, vi)]).length - 50 = 0 := by
      simp only [List.length_append, List.length_cons, List.length_nil]
      omega
    have horderlen : (storeOfItems items).versionOrder.length + 1 ≤ 50 := by
      show ((items.map Prod.fst).drop (items.length - 50)).length + 1 ≤ 50
      rw [List.length_drop, List.length_map]
      omega
    rw [saveVersion_small _ _ _ horderlen hfresh2]
    show VStore.mk _ _ = VStore.mk _ _
    unfold storeOfItems
    rw [hd, hd']
    simp [List.map_append, List.drop_zero]
  · have hlen50 : ((items.map Prod.fst).drop (items.length - 50)).length = 50 := by
      rw [List.length_drop, List.length_map]
      omega
    obtain ⟨o, rest, hor⟩ : ∃ o rest,
        (items.map Prod.fst).drop (items.length - 50) = o :: rest := by
      cases hsf : (items.map Prod.fst).drop (items.length - 50) with
      | nil => rw [hsf] at hlen50; simp at hlen50
      | cons o rest => exact ⟨o, rest, rfl⟩
    have horder : (storeOfItems items).versionOrder = o :: rest := hor
    have hlenge : 50 ≤ (storeOfItems items).versionOrder.length := by
      show 50 ≤ ((items.map Prod.fst).drop (items.length - 50)).length
      omega
    rw [saveVersion_evict _ _ _ o rest horder hlenge hfresh2]
    -- decompose the stored suffix in step with its key list
    cases hsp : (items.drop (items.length - 50)).map
        (fun it => (it.1, it.2.withId it.1)) with
    | nil =>
      have hsfxkeys : (([] : List (String × Version)).map Prod.fst) = o :: rest := by
        rw [← hsp, map_fst_pairFn, List.map_drop]
        exact hor
      simp at hsfxkeys
    | cons p0 prest =>
      have hsfxkeys : ((p0 :: prest).map Prod.fst) = o :: rest := by
        rw [← hsp, map_fst_pairFn, List.map_drop]
        exact hor
      simp only [List.map_cons, List.cons.injEq] at hsfxkeys
      obtain ⟨hp0, hprest⟩ := hsfxkeys
      have hsuffnd : (o :: rest).Nodup := by
        rw [← hor]
        exact (List.drop_sublist _ _).nodup hnd
      have homem : o ∈ items.map Prod.fst := by
        apply List.mem_of_mem_drop (n := items.length - 50)
        rw [hor]
        exact List.mem_cons_self _ _
      have hido : id ≠ o := fun hh => hfresh (hh ▸ homem)
      have hdel : mapDelete ((p0 :: prest) ++ [(id, vi.withId id)]) o =
          prest ++ [(id, vi.withId id)] := by
        rcases p0 with ⟨pk, pv⟩
        simp only [List.cons_append]
        have hpk : pk = o := hp0
        subst hpk
        apply mapDelete_cons_self
        intro e he
        rcases List.mem_append.mp he with he1 | he1
        · have hkm : e.1 ∈ prest.map Prod.fst := List.mem_map_of_mem Prod.fst he1
          rw [hprest] at hkm
          exact fun hcontra => (List.nodup_cons.mp hsuffnd).1 (hcontra ▸ hkm)
        · have he2 : e = (id, vi.withId id) := by simpa using he1
          rw [he2]
          exact hido
      have hv : (storeOfItems items).versions = p0 :: prest := hsp
      rw [hv, hdel]
      -- right-hand side: the suffix advances by one
      have hlen' : (items ++ [(id, vi)]).length - 50 = (items.length - 50) + 1 := by
        simp only [List.length_append, List.length_cons, List.length_nil]
        omega
      have hdropitems : (items ++ [(id, vi)]).drop ((items.length - 50) + 1) =
          items.drop ((items.length - 50) + 1) ++ [(id, vi)] := by
        apply List.drop_append_of_le_length
        omega
      have htail : items.drop ((items.length - 50) + 1) =
          (items.drop (items.length - 50)).tail := by
        rw [← List.drop_drop]
        exact List.drop_one _
      have hmaptail : (items.drop ((items.length - 50) + 1)).map
          (fun it => (it.1, it.2.withId it.1)) = prest := by
        rw [htail]
        cases hq : items.drop (items.length - 50) with
        | nil =>
          have hq2 : (([] : List (String × VersionInput)).map
              (fun it => (it.1, it.2.withId it.1))) = p0 :: prest := by
            rw [← hq]
            exact hsp
          simp at hq2
        | cons q0 qrest =>
          have hq2 : ((q0 :: qrest).map (fun it => (it.1, it.2.withId it.1))) =
              p0 :: prest := by
            rw [← hq]
            exact hsp
          simp only [List.map_cons, List.cons.injEq] at hq2
          simpa using hq2.2
      have hmapfsttail : ((items ++ [(id, vi)]).map Prod.fst).drop
          ((items.length - 50) + 1) = rest ++ [id] := by
        rw [List.map_append]
        rw [List.drop_append_of_le_length (by rw [List.length_map]; omega)]
        have : (items.map Prod.fst).drop ((items.length - 50) + 1) = rest := by
          rw [← List.drop_drop, hor]
          rfl
        rw [this]
        rfl
      unfold storeOfItems
      rw [hlen', hdropitems, List.map_append, hmaptail, hmapfsttail]
      rfl

theorem appendAll_eq_storeOf :
    ∀ items : List (String × VersionInput), (items.map Prod.fst).Nodup →
      appendAll {} items = storeOfItems items := by
  intro items
  induction items using List.reverseRecOn with
  | nil => intro _; rfl
  | append_singleton l it ih =>
    intro hnd
    rw [List.map_append] at hnd
    rw [List.nodup_append] at hnd
    obtain ⟨hnd1, _, hdisj⟩ := hnd
    have hfresh : it.1 ∉ l.map Prod.fst := by
      intro hmem
      exact hdisj hmem (by simp)
    have hstep : appendAll {} (l ++ [it]) = (saveVersion (appendAll {} l) it.2 it.1).2 := by
      unfold appendAll
      rw [List.foldl_append]
      rfl
    rw [hstep, ih hnd1]
    rcases it with ⟨id, vi⟩
    exact saveVersion_storeOf l id vi hnd1 hfresh

theorem map_fst_mapDelete (id : String) :
    ∀ m : List (String × Version),
      (mapDelete m id).map Prod.fst = (m.map Prod.fst).filter (fun k => k != id) := by
  intro m
  induction m with
  | nil => rfl
  | cons e t ih =>
    rcases e with ⟨a, b⟩
    unfold mapDelete at ih ⊢
    rw [List.filter_cons, List.map_cons, List.filter_cons]
    by_cases h : a = id
    · subst h
      have h1 : ((a, b).1 != a) = false := by simp
      rw [h1]
      simpa using ih
    · have h1 : ((a, b).1 != id) = true := by simpa using h
      rw [h1]
      simpa using ih

theorem saveVersion_fst (s : VStore) (vi : VersionInput) (id : String) :
    (saveVersion s vi id).1 = vi.withId id := by
  simp only [saveVersion]
  split
  · split <;> rfl
  · rfl

theorem getVersion_saveVersion_self (s : VStore) (vi : VersionInput) (id : String)
    (hfresh : id ∉ s.versionOrder) :
    getVersion (saveVersion s vi id).2 id = some (vi.withId id) := by
  simp only [saveVersion]
  split
  · rename_i hgt
    cases ho : s.versionOrder with
    | nil =>
      rw [ho] at hgt
      simp at hgt
    | cons o rest =>
      have hne : id ≠ o := by
        intro hc
        apply hfresh
        rw [ho, hc]
        exact List.mem_cons_self o rest
      show (mapDelete (mapSet s.versions id (vi.withId id)) o).lookup id = _
      rw [lookup_mapDelete_ne id o hne]
      exact lookup_mapSet_self _ _ _
  · show (mapSet s.versions id (vi.withId id)).lookup id = _
    exact lookup_mapSet_self _ _ _

/-! ## C3: bounded history -/

/-- C3: starting from the empty `VersionStore`, appending 55 versions with
fresh distinct ids leaves exactly 50 versions: the 50 most recently appended
ones, oldest first in insertion order; and any append to a store whose order
list holds 50 ids removes the single oldest entry from both the order list
and the id-to-version map. -/
theorem claim_C3 (items : List (String × VersionInput))
    (hlen : items.length = 55) (hnd : (items.map Prod.fst).Nodup) :
    getVersionCount (appendAll {} items) = 50 ∧
    (appendAll {} items).versionOrder = (items.map Prod.fst).drop 5 ∧
    getAllVersions (appendAll {} items) =
      (items.drop 5).map (fun it => it.2.withId it.1) ∧
    (∀ (s : VStore) (vi : VersionInput) (id o : String) (rest : List String),
      s.versionOrder = o :: rest → s.versionOrder.length = 50 →
      (saveVersion s vi id).2.versionOrder = rest ++ [id] ∧
      (saveVersion s vi id).2.versions =
        mapDelete (mapSet s.versions id (vi.withId id)) o) := by
  have happ := appendAll_eq_storeOf items hnd
  have hd : items.length - 50 = 5 := by omega
  refine ⟨?_, ?_, ?_, ?_⟩
  · rw [happ]
    show ((items.drop (items.length - 50)).map _).length = 50
    rw [List.length_map, List.length_drop]
    omega
  · rw [happ]
    show (items.map Prod.fst).drop (items.length - 50) = _
    rw [hd]
  · rw [happ]
    show ((items.map Prod.fst).drop (items.length - 50)).filterMap
      (fun id => ((items.drop (items.length - 50)).map
        (fun it => (it.1, it.2.withId it.1))).lookup id) = _
    have hkeys : ((items.drop (items.length - 50)).map
        (fun it => (it.1, it.2.withId it.1))).map Prod.fst =
        (items.map Prod.fst).drop (items.length - 50) := by
      rw [map_fst_pairFn, List.map_drop]
    rw [← hkeys]
    rw [filterMap_lookup_pairs _
      (by rw [hkeys]; exact (List.drop_sublist _ _).nodup hnd)]
    rw [List.map_map, hd]
    rfl
  · intro s vi id o rest ho hl
    have hstep : (saveVersion s vi id).2 =
        { versions := mapDelete (mapSet s.versions id (vi.withId id)) o,
          versionOrder := rest ++ [id] } := by
      simp only [saveVersion]
      rw [ho]
      rw [ho] at hl
      simp only [List.length_cons] at hl
      rw [if_pos (by simp only [List.cons_append, List.length_append,
        List.length_cons, List.length_nil]; omega)]
      rfl
    rw [hstep]
    exact ⟨rfl, rfl⟩

/-- C3 witness: 55 concrete items with distinct ids. -/
theorem claim_C3_witness :
    items55.length = 55 ∧ (items55.map Prod.fst).Nodup ∧
    (getVersionCount (appendAll {} items55) = 50 ∧
     (appendAll {} items55).versionOrder = (items55.map Prod.fst).drop 5 ∧
     getAllVersions (appendAll {} items55) =
       (items55.drop 5).map (fun it => it.2.withId it.1) ∧
     (∀ (s : VStore) (vi : VersionInput) (id o : String) (rest : List String),
       s.versionOrder = o :: rest → s.versionOrder.length = 50 →
       (saveVersion s vi id).2.versionOrder = rest ++ [id] ∧
       (saveVersion s vi id).2.versions =
         mapDelete (mapSet s.versions id (vi.withId id)) o)) :=
  ⟨by decide, by decide, claim_C3 items55 (by decide) (by decide)⟩

/-! ## C10: version-store representation invariant -/

/-- C10: every `VersionService` state change (`saveVersion` with a fresh id,
`deleteVersion`, `clear`) preserves the representation invariant — no
duplicate ids in the order list, map keys equal to the order list, each
stored version carrying its key as id, at most 50 entries — and under the
invariant `getVersionCount` equals the order-list length and
`getAllVersions` returns exactly one version per stored id, in insertion
order. -/
theorem claim_C10 (s : VStore) (hInv : StoreInv s) :
    (∀ (vi : VersionInput) (id : String), id ∉ s.versionOrder →
      StoreInv (saveVersion s vi id).2) ∧
    (∀ id, StoreInv (deleteVersion s id).2) ∧
    StoreInv (clearStore s) ∧
    getVersionCount s = s.versionOrder.length ∧
    (getAllVersions s).map Version.id = s.versionOrder := by
  obtain ⟨hndOrd, hkeys, hid, hlen⟩ := hInv
  refine ⟨?_, ?_, ?_, ?_, ?_⟩
  · intro vi id hfreshOrd
    have hfresh : id ∉ s.versions.map Prod.fst := by
      rw [hkeys]
      exact hfreshOrd
    rcases Nat.lt_or_ge s.versionOrder.length 50 with hl | hl
    · rw [saveVersion_small s vi id (by omega) hfresh]
      refine ⟨?_, ?_, ?_, ?_⟩
      · show (s.versionOrder ++ [id]).Nodup
        rw [List.nodup_append]
        refine ⟨hndOrd, List.nodup_singleton _, ?_⟩
        intro a ha hmem
        exact hfreshOrd ((List.mem_singleton.mp hmem) ▸ ha)
      · show (s.versions ++ [(id, vi.withId id)]).map Prod.fst = s.versionOrder ++ [id]
        rw [List.map_append, hkeys]
        rfl
      · intro e he
        rcases List.mem_append.mp he with h1 | h1
        · exact hid e h1
        · have he2 : e = (id, vi.withId id) := by simpa using h1
          rw [he2]
          rfl
      · show (s.versionOrder ++ [id]).length ≤ 50
        simp only [List.length_append, List.length_cons, List.length_nil]
        omega
    · have h50 : s.versionOrder.length = 50 := by omega
      obtain ⟨o, rest, ho⟩ : ∃ o rest, s.versionOrder = o :: rest := by
        cases hc : s.versionOrder with
        | nil => rw [hc] at h50; simp at h50
        | cons o rest => exact ⟨o, rest, rfl⟩
      rw [saveVersion_evict s vi id o rest ho (by omega) hfresh]
      have hkeys' : s.versions.map Prod.fst = o :: rest := by
        rw [hkeys, ho]
      have hndsuff : (o :: rest).Nodup := ho ▸ hndOrd
      have hido : id ≠ o := by
        intro hc
        exact hfreshOrd (ho ▸ (hc ▸ List.mem_cons_self o rest))
      cases hv : s.versions with
      | nil =>
        have hk2 : (([] : List (String × Version)).map Prod.fst) = o :: rest := by
          rw [← hv]
          exact hkeys'
        simp at hk2
      | cons p0 vtail =>
        have hk2 : ((p0 :: vtail).map Prod.fst) = o :: rest := by
          rw [← hv]
          exact hkeys'
        simp only [List.map_cons, List.cons.injEq] at hk2
        obtain ⟨hp0, hvtail⟩ := hk2
        rcases p0 with ⟨pk, pv⟩
        have hpk : pk = o := hp0
        subst hpk
        have hdel : mapDelete ((pk, pv) :: vtail ++ [(id, vi.withId id)]) pk =
            vtail ++ [(id, vi.withId id)] := by
          apply mapDelete_cons_self
          intro e he
          rcases List.mem_append.mp he with h1 | h1
          · have hkm : e.1 ∈ vtail.map Prod.fst := List.mem_map_of_mem Prod.fst h1
            rw [hvtail] at hkm
            exact fun hc => (List.nodup_cons.mp hndsuff).1 (hc ▸ hkm)
          · have he2 : e = (id, vi.withId id) := by simpa using h1
            rw [he2]
            exact hido
        rw [hdel]
        refine ⟨?_, ?_, ?_, ?_⟩
        · show (rest ++ [id]).Nodup
          rw [List.nodup_append]
          refine ⟨(List.nodup_cons.mp hndsuff).2, List.nodup_singleton _, ?_⟩
          intro a ha hmem
          apply hfreshOrd
          rw [ho]
          exact List.mem_cons_of_mem _ ((List.mem_singleton.mp hmem) ▸ ha)
        · show (vtail ++ [(id, vi.withId id)]).map Prod.fst = rest ++ [id]
          rw [List.map_append, hvtail]
          rfl
        · intro e he
          rcases List.mem_append.mp he with h1 | h1
          · exact hid e (by rw [hv]; exact List.mem_cons_of_mem _ h1)
          · have he2 : e = (id, vi.withId id) := by simpa using h1
            rw [he2]
            rfl
        · show (rest ++ [id]).length ≤ 50
          rw [ho] at h50
          simp only [List.length_cons] at h50
          simp only [List.length_append, List.length_cons, List.length_nil]
          omega
  · intro id
    unfold deleteVersion
    by_cases hex : (s.versions.any fun e => e.1 == id) = true
    · rw [if_pos hex]
      refine ⟨?_, ?_, ?_, ?_⟩
      · exact hndOrd.filter _
      · show (mapDelete s.versions id).map Prod.fst =
          s.versionOrder.filter (fun vid => vid != id)
        rw [map_fst_mapDelete, hkeys]
      · intro e he
        exact hid e (List.mem_of_mem_filter he)
      · calc (s.versionOrder.filter (fun vid => vid != id)).length
            ≤ s.versionOrder.length := List.length_filter_le _ _
          _ ≤ 50 := hlen
    · rw [if_neg hex]
      exact ⟨hndOrd, hkeys, hid, hlen⟩
  · exact ⟨List.nodup_nil, rfl, by simp [clearStore], by simp [clearStore]⟩
  · show s.versions.length = s.versionOrder.length
    rw [← hkeys, List.length_map]
  · show (s.versionOrder.filterMap (fun id => s.versions.lookup id)).map Version.id =
      s.versionOrder
    rw [← hkeys]
    rw [filterMap_lookup_pairs _ (hkeys ▸ hndOrd)]
    rw [List.map_map]
    apply List.map_congr_left
    intro e he
    exact hid e he

/-- C10 witness: a one-entry store satisfies the invariant, and the theorem's
conclusion holds there. -/
theorem claim_C10_witness :
    StoreInv storeOne ∧
    ((∀ (vi : VersionInput) (id : String), id ∉ storeOne.versionOrder →
      StoreInv (saveVersion storeOne vi id).2) ∧
     (∀ id, StoreInv (deleteVersion storeOne id).2) ∧
     StoreInv (clearStore storeOne) ∧
     getVersionCount storeOne = storeOne.versionOrder.length ∧
     (getAllVersions storeOne).map Version.id = storeOne.versionOrder) :=
  ⟨by unfold StoreInv; decide, claim_C10 storeOne (by unfold StoreInv; decide)⟩

/-! ## C5: rollback fidelity -/

/-- C5: for a version `v` stored under `vid`, `rollback vid` appends and
returns a new version whose plan and generated code equal `v`'s, with
metadata intent `rollback` and user message `"[ROLLBACK] "` prefixed to
`v`'s; for an id not in the store, rollback returns not-found and leaves the
store unchanged. -/
theorem claim_C5 (s : VStore) (vid newId : String) (now : Nat)
    (hfresh : newId ∉ s.versionOrder) :
    (∀ v, getVersion s vid = some v →
      ∃ nv, (rollback vid newId now s).1 = RollbackResult.ok nv ∧
        nv.plan = v.plan ∧ nv.generatedCode = v.generatedCode ∧
        nv.metadata.intent = "rollback" ∧
        nv.userMessage = "[ROLLBACK] " ++ v.userMessage ∧
        nv.id = newId ∧
        getVersion (rollback vid newId now s).2 newId = some nv) ∧
    (getVersion s vid = none →
      (rollback vid newId now s).1 = RollbackResult.notFound ∧
      (rollback vid newId now s).2 = s) := by
  constructor
  · intro v hv
    have hbody : rollback vid newId now s =
        (RollbackResult.ok (saveVersion s
            { userMessage := "[ROLLBACK] " ++ v.userMessage,
              plan := v.plan, generatedCode := v.generatedCode,
              explanation := v.explanation, diffFromPrevious := none,
              timestamp := now,
              metadata := { intent := "rollback",
                            componentCount := v.metadata.componentCount,
                            linesOfCode := v.metadata.linesOfCode } } newId).1,
         (saveVersion s
            { userMessage := "[ROLLBACK] " ++ v.userMessage,
              plan := v.plan, generatedCode := v.generatedCode,
              explanation := v.explanation, diffFromPrevious := none,
              timestamp := now,
              metadata := { intent := "rollback",
                            componentCount := v.metadata.componentCount,
                            linesOfCode := v.metadata.linesOfCode } } newId).2) := by
      unfold rollback
      rw [hv]
    refine Exists.intro ((saveVersion s
        { userMessage := "[ROLLBACK] " ++ v.userMessage,
          plan := v.plan, generatedCode := v.generatedCode,
          explanation := v.explanation, diffFromPrevious := none,
          timestamp := now,
          metadata := { intent := "rollback",
                        componentCount := v.metadata.componentCount,
                        linesOfCode := v.metadata.linesOfCode } } newId).1) ?_
    rw [saveVersion_fst]
    refine ⟨?_, rfl, rfl, rfl, rfl, rfl, ?_⟩
    · rw [hbody, saveVersion_fst]
    · have hsnd : (rollback vid newId now s).2 = (saveVersion s
          { userMessage := "[ROLLBACK] " ++ v.userMessage,
            plan := v.plan, generatedCode := v.generatedCode,
            explanation := v.explanation, diffFromPrevious := none,
            timestamp := now,
            metadata := { intent := "rollback",
                          componentCount := v.metadata.componentCount,
                          linesOfCode := v.metadata.linesOfCode } } newId).2 := by
        rw [hbody]
      rw [hsnd]
      exact getVersion_saveVersion_self s _ newId hfresh
  · intro hnone
    have hbody : rollback vid newId now s = (RollbackResult.notFound, s) := by
      unfold rollback
      rw [hnone]
    rw [hbody]
    exact ⟨rfl, rfl⟩

/-- C5 witness: a store holding one version under `v1`; rolling back to it
with fresh id `v2`. -/
theorem claim_C5_witness :
    ("v2" ∉ storeOne.versionOrder) ∧
    ((∀ v, getVersion storeOne "v1" = some v →
      ∃ nv, (rollback "v1" "v2" 7 storeOne).1 = RollbackResult.ok nv ∧
        nv.plan = v.plan ∧ nv.generatedCode = v.generatedCode ∧
        nv.metadata.intent = "rollback" ∧
        nv.userMessage = "[ROLLBACK] " ++ v.userMessage ∧
        nv.id = "v2" ∧
        getVersion (rollback "v1" "v2" 7 storeOne).2 "v2" = some nv) ∧
     (getVersion storeOne "v1" = none →
      (rollback "v1" "v2" 7 storeOne).1 = RollbackResult.notFound ∧
      (rollback "v1" "v2" 7 storeOne).2 = storeOne)) :=
  ⟨by decide, claim_C5 storeOne "v1" "v2" 7 (by decide)⟩

/-! ## C8: intent keyword vote -/

theorem foldl_vote (m : String) :
    ∀ (entries : List (String × List String)) (a : Nat) (nm : String),
      ((entries.foldl (fun (acc : Nat × String) entry =>
          if countKeywordMatches m entry.2 > acc.1 then
            (countKeywordMatches m entry.2, entry.1) else acc) (a, nm)).1 =
        max a ((entries.map (fun e => countKeywordMatches m e.2)).foldr max 0)) ∧
      (((entries.foldl (fun (acc : Nat × String) entry =>
          if countKeywordMatches m entry.2 > acc.1 then
            (countKeywordMatches m entry.2, entry.1) else acc) (a, nm)) = (a, nm) ∧
          ∀ e ∈ entries, countKeywordMatches m e.2 ≤ a) ∨
       (∃ pre e post, entries = pre ++ e :: post ∧
          (entries.foldl (fun (acc : Nat × String) entry =>
            if countKeywordMatches m entry.2 > acc.1 then
              (countKeywordMatches m entry.2, entry.1) else acc) (a, nm)).2 = e.1 ∧
          countKeywordMatches m e.2 =
            (entries.foldl (fun (acc : Nat × String) entry =>
              if countKeywordMatches m entry.2 > acc.1 then
                (countKeywordMatches m entry.2, entry.1) else acc) (a, nm)).1 ∧
          a < (entries.foldl (fun (acc : Nat × String) entry =>
            if countKeywordMatches m entry.2 > acc.1 then
              (countKeywordMatches m entry.2, entry.1) else acc) (a, nm)).1 ∧
          ∀ e2 ∈ pre, countKeywordMatches m e2.2 <
            (entries.foldl (fun (acc : Nat × String) entry =>
              if countKeywordMatches m entry.2 > acc.1 then
                (countKeywordMatches m entry.2, entry.1) else acc) (a, nm)).1)) := by
  intro entries
  induction entries with
  | nil =>
    intro a nm
    refine ⟨by simp, Or.inl ⟨rfl, by simp⟩⟩
  | cons e rest ih =>
    intro a nm
    simp only [List.foldl_cons, List.map_cons, List.foldr_cons]
    by_cases hc : countKeywordMatches m e.2 > a
    · rw [if_pos hc]
      obtain ⟨ih1, ih2⟩ := ih (countKeywordMatches m e.2) e.1
      constructor
      · rw [ih1]
        exact (Nat.max_eq_right (le_trans (le_of_lt hc)
          (Nat.le_max_left _ _))).symm
      · rcases ih2 with ⟨hst, hall⟩ | ⟨pre, e2, post, heq, h1, h2, h3, h4⟩
        · right
          refine ⟨[], e, rest, by simp, ?_, ?_, ?_, by simp⟩
          · rw [hst]
          · rw [hst]
          · rw [hst]
            exact hc
        · right
          refine ⟨e :: pre, e2, post, by rw [heq]; rfl, h1, h2, lt_trans hc h3, ?_⟩
          intro x hx
          rcases List.mem_cons.mp hx with hx1 | hx2
          · rw [hx1]
            exact h3
          · exact h4 x hx2
    · rw [if_neg hc]
      push_neg at hc
      obtain ⟨ih1, ih2⟩ := ih a nm
      constructor
      · rw [ih1]
        conv_rhs => rw [← Nat.max_assoc, Nat.max_eq_left hc]
      · rcases ih2 with ⟨hst, hall⟩ | ⟨pre, e2, post, heq, h1, h2, h3, h4⟩
        · left
          refine ⟨hst, ?_⟩
          intro x hx
          rcases List.mem_cons.mp hx with hx1 | hx2
          · rw [hx1]
            exact hc
          · exact hall x hx2
        · right
          refine ⟨e :: pre, e2, post, by rw [heq]; rfl, h1, h2, h3, ?_⟩
          intro x hx
          rcases List.mem_cons.mp hx with hx1 | hx2
          · rw [hx1]
            exact lt_of_le_of_lt hc h3
          · exact h4 x hx2

/-- C8 counterexample: for the request with message `hello there` and
`previousVersionId` set, no injection signature matches and every intent's
keyword-match count is zero, so the claimed tie-break rule yields `create`;
the code instead overrides the `create` vote to `modify` because a prior
version is referenced. -/
theorem claim_C8_counterexample :
    detectPromptInjection (toLowerStr "hello there") = [] ∧
    (INTENT_KEYWORDS.map (fun e =>
      countKeywordMatches (toLowerStr "hello there") e.2)).foldr max 0 = 0 ∧
    (analyzeIntent { message := "hello there", previousVersionId := some "x" }).intent =
      "modify" := by
  decide

/-- C8 (amended): when no injection signature matches and the request carries
no `previousVersionId`, `analyzeIntent` picks the earliest-declared intent of
`INTENT_KEYWORDS` attaining the maximal keyword-match count (strict-greater
updates, so ties resolve to the earlier intent and an all-zero count yields
`create`), with confidence `min(maxMatches/3, 1)`.  When a prior version is
referenced, the source overrides a winning `create` vote to `modify` unless
the message contains `rollback` or `regenerate`, so the vote rule as claimed
holds only for requests without a prior version. -/
theorem claim_C8_amended (req : GenerationRequest)
    (hinj : detectPromptInjection (toLowerStr req.message) = [])
    (hprev : req.previousVersionId = none) :
    (analyzeIntent req).confidence =
      min ((((INTENT_KEYWORDS.map (fun e =>
        countKeywordMatches (toLowerStr req.message) e.2)).foldr max 0 : Nat) : ℚ) / 3) 1 ∧
    ∃ pre e post, INTENT_KEYWORDS = pre ++ e :: post ∧
      (analyzeIntent req).intent = e.1 ∧
      countKeywordMatches (toLowerStr req.message) e.2 =
        (INTENT_KEYWORDS.map (fun e =>
          countKeywordMatches (toLowerStr req.message) e.2)).foldr max 0 ∧
      ∀ e2 ∈ pre, countKeywordMatches (toLowerStr req.message) e2.2 <
        (INTENT_KEYWORDS.map (fun e =>
          countKeywordMatches (toLowerStr req.message) e.2)).foldr max 0 := by
  obtain ⟨h1, h2⟩ := foldl_vote (toLowerStr req.message) INTENT_KEYWORDS 0 "create"
  have hM : (INTENT_KEYWORDS.foldl (fun (acc : Nat × String) entry =>
      if countKeywordMatches (toLowerStr req.message) entry.2 > acc.1 then
        (countKeywordMatches (toLowerStr req.message) entry.2, entry.1) else acc)
      (0, "create")).1 =
      (INTENT_KEYWORDS.map (fun e =>
        countKeywordMatches (toLowerStr req.message) e.2)).foldr max 0 := by
    rw [h1]
    exact Nat.zero_max _
  have hai : analyzeIntent req =
      { intent := (INTENT_KEYWORDS.foldl (fun (acc : Nat × String) entry =>
          if countKeywordMatches (toLowerStr req.message) entry.2 > acc.1 then
            (countKeywordMatches (toLowerStr req.message) entry.2, entry.1) else acc)
          (0, "create")).2,
        confidence := min (((INTENT_KEYWORDS.foldl (fun (acc : Nat × String) entry =>
          if countKeywordMatches (toLowerStr req.message) entry.2 > acc.1 then
            (countKeywordMatches (toLowerStr req.message) entry.2, entry.1) else acc)
          (0, "create")).1 : ℚ) / 3) 1,
        reasoning := generateIntentReasoning
          ((INTENT_KEYWORDS.foldl (fun (acc : Nat × String) entry =>
            if countKeywordMatches (toLowerStr req.message) entry.2 > acc.1 then
              (countKeywordMatches (toLowerStr req.message) entry.2, entry.1) else acc)
            (0, "create")).2)
          (toLowerStr req.message)
          ((INTENT_KEYWORDS.foldl (fun (acc : Nat × String) entry =>
            if countKeywordMatches (toLowerStr req.message) entry.2 > acc.1 then
              (countKeywordMatches (toLowerStr req.message) entry.2, entry.1) else acc)
            (0, "create")).1) } := by
    simp only [analyzeIntent]
    rw [hinj, hprev]
    simp
  constructor
  · rw [hai, hM]
  · rcases h2 with ⟨hst, hall⟩ | ⟨pre, e, post, heq, hh1, hh2, hh3, hh4⟩
    · refine ⟨[], ("create",
        ["create", "build", "design", "make", "new", "generate", "design a", "build a"]),
        [("modify", ["update", "change", "modify", "edit", "add", "remove", "replace"]),
         ("remove", ["delete", "remove", "eliminate", "drop"]),
         ("regenerate", ["regenerate", "redo", "retry", "again", "different version"]),
         ("rollback", ["revert", "rollback", "go back", "restore", "previous"])],
        rfl, ?_, ?_, by simp⟩
      · rw [hai, hst]
      · have hcz : countKeywordMatches (toLowerStr req.message)
            ["create", "build", "design", "make", "new", "generate", "design a",
             "build a"] = 0 :=
          Nat.le_zero.mp (hall ("create",
            ["create", "build", "design", "make", "new", "generate", "design a",
             "build a"]) (by simp [INTENT_KEYWORDS]))
        have hfr : (INTENT_KEYWORDS.map (fun e =>
            countKeywordMatches (toLowerStr req.message) e.2)).foldr max 0 = 0 := by
          rw [← hM, hst]
        rw [hfr]
        exact hcz
    · refine ⟨pre, e, post, heq, ?_, ?_, ?_⟩
      · rw [hai, hh1]
      · rw [hh2, hM]
      · intro e2 he2
        rw [← hM]
        exact hh4 e2 he2

/-- C8 amended-theorem witness: the benign fixture request (no injection, no
prior version). -/
theorem claim_C8_witness :
    detectPromptInjection (toLowerStr reqSimple.message) = [] ∧
    reqSimple.previousVersionId = none ∧
    ((analyzeIntent reqSimple).confidence =
      min ((((INTENT_KEYWORDS.map (fun e =>
        countKeywordMatches (toLowerStr reqSimple.message) e.2)).foldr max 0 : Nat) : ℚ) / 3) 1 ∧
     ∃ pre e post, INTENT_KEYWORDS = pre ++ e :: post ∧
       (analyzeIntent reqSimple).intent = e.1 ∧
       countKeywordMatches (toLowerStr reqSimple.message) e.2 =
         (INTENT_KEYWORDS.map (fun e =>
           countKeywordMatches (toLowerStr reqSimple.message) e.2)).foldr max 0 ∧
       ∀ e2 ∈ pre, countKeywordMatches (toLowerStr reqSimple.message) e2.2 <
         (INTENT_KEYWORDS.map (fun e =>
           countKeywordMatches (toLowerStr reqSimple.message) e.2)).foldr max 0) :=
  ⟨by decide, rfl, claim_C8_amended reqSimple (by decide) rfl⟩

/-! ## C1: fail-closed security gate -/

/-- C1: for any emitter, when the request passes the early stages but the
security check (injection scan of the raw message plus forbidden-keyword,
inline-style, and dangerous-prop scans of the emitted markup) or the
subsequent code-safety validation reports at least one violation, `generate`
returns the corresponding rejection carrying the structured violations and
the `VersionStore` is unchanged: no version is appended. -/
theorem claim_C1 (emit : GenerationPlan → String) (meta : String → Nat × Nat)
    (expl : String → GenerationPlan → String → Explanation)
    (u : Nat → String) (newId : String) (now : Nat)
    (req : GenerationRequest) (s : VStore)
    (h1 : (req.message == "" || (jsTrim req.message).length == 0) = false)
    (h2 : (validateIntentRequirements (analyzeIntent req).intent req).valid = true)
    (h3 : (validatePlan (generatePlan req.message none u 0)).valid = true)
    (h4 : ¬((performSecurityCheck req.message
        (emit (generatePlan req.message none u 0))).safe = true ∧
      (validateCodeSafety (emit (generatePlan req.message none u 0))).valid = true)) :
    generate emit meta expl u newId now req s =
      (if (performSecurityCheck req.message
            (emit (generatePlan req.message none u 0))).safe then
        GenResult.codeSafetyFailed
          (validateCodeSafety (emit (generatePlan req.message none u 0))).errors
       else
        GenResult.securityFailed
          (performSecurityCheck req.message
            (emit (generatePlan req.message none u 0))).violations,
       s) := by
  simp only [generate]
  rw [h1]
  simp only [Bool.false_eq_true, if_false]
  rw [h2]
  simp only [Bool.not_true, Bool.false_eq_true, if_false]
  rw [h3]
  simp only [Bool.not_true, Bool.false_eq_true, if_false]
  by_cases hsafe : (performSecurityCheck req.message
      (emit (generatePlan req.message none u 0))).safe = true
  · have hcs : (validateCodeSafety (emit (generatePlan req.message none u 0))).valid
        = false := by
      rcases Bool.eq_false_or_eq_true
        (validateCodeSafety (emit (generatePlan req.message none u 0))).valid with h | h
      · exact absurd ⟨hsafe, h⟩ h4
      · exact h
    rw [hsafe, hcs]
    simp
  · have hsafe' : (performSecurityCheck req.message
        (emit (generatePlan req.message none u 0))).safe = false :=
      Bool.eq_false_iff.mpr hsafe
    rw [hsafe']
    simp

/-- C1 witness: a benign request with an emitter whose markup contains
`eval`; the security check fails and the empty store stays empty. -/
theorem claim_C1_witness :
    (reqSimple.message == "" || (jsTrim reqSimple.message).length == 0) = false ∧
    (validateIntentRequirements (analyzeIntent reqSimple).intent reqSimple).valid = true ∧
    (validatePlan (generatePlan reqSimple.message none supplyA 0)).valid = true ∧
    ¬((performSecurityCheck reqSimple.message
        (emitterEval (generatePlan reqSimple.message none supplyA 0))).safe = true ∧
      (validateCodeSafety (emitterEval (generatePlan reqSimple.message none supplyA 0))).valid
        = true) ∧
    generate emitterEval metaFixture explFixture supplyA "nid" 9 reqSimple {} =
      (if (performSecurityCheck reqSimple.message
            (emitterEval (generatePlan reqSimple.message none supplyA 0))).safe then
        GenResult.codeSafetyFailed
          (validateCodeSafety (emitterEval (generatePlan reqSimple.message none supplyA 0))).errors
       else
        GenResult.securityFailed
          (performSecurityCheck reqSimple.message
            (emitterEval (generatePlan reqSimple.message none supplyA 0))).violations,
       ({} : VStore)) :=
  ⟨by decide, by decide, by decide, by decide,
   claim_C1 emitterEval metaFixture explFixture supplyA "nid" 9 reqSimple {}
    (by decide) (by decide) (by decide) (by decide)⟩

/-! ## C4: plan determinism up to node ids -/

theorem eNode_type (c : CNode) : (eNode c).type = c.type := by
  cases c with
  | mk i t p ch => cases ch <;> simp [eNode, CNode.type]

theorem eChildren_map_node (l : List CNode) :
    eChildren (l.map Child.node) = (l.map eNode).map Child.node := by
  induction l with
  | nil => simp [eChildren]
  | cons c r ih =>
    simp only [List.map_cons, eChildren]
    rw [ih]

theorem any_type_eList (l : List CNode) (ty : String) :
    (eList l).any (fun c => c.type == ty) = l.any (fun c => c.type == ty) := by
  induction l with
  | nil => rfl
  | cons c r ih =>
    simp only [eList, List.map_cons, List.any_cons]
    simp only [eList] at ih
    rw [eNode_type c, ih]

theorem createCFT_erase (t : String) (u1 u2 : Nat → String) (k1 k2 : Nat) :
    Option.map eNode (createComponentFromType t u1 k1).1 =
      Option.map eNode (createComponentFromType t u2 k2).1 := by
  simp only [createComponentFromType]
  by_cases h0 : (toLowerStr t == "button") = true
  · rw [if_pos h0, if_pos h0]
    try simp [eNode]
  · rw [if_neg h0, if_neg h0]
    by_cases h1 : (toLowerStr t == "card") = true
    · rw [if_pos h1, if_pos h1]
      try simp [eNode]
    · rw [if_neg h1, if_neg h1]
      by_cases h2 : (toLowerStr t == "header") = true
      · rw [if_pos h2, if_pos h2]
        try simp [eNode]
      · rw [if_neg h2, if_neg h2]
        by_cases h3 : (toLowerStr t == "input") = true
        · rw [if_pos h3, if_pos h3]
          try simp [eNode]
        · rw [if_neg h3, if_neg h3]
          by_cases h4 : (toLowerStr t == "select") = true
          · rw [if_pos h4, if_pos h4]
            try simp [eNode]
          · rw [if_neg h4, if_neg h4]
            by_cases h5 : (toLowerStr t == "modal") = true
            · rw [if_pos h5, if_pos h5]
              try simp [eNode]
            · rw [if_neg h5, if_neg h5]
              by_cases h6 : (toLowerStr t == "list") = true
              · rw [if_pos h6, if_pos h6]
                try simp [eNode]
              · rw [if_neg h6, if_neg h6]
                by_cases h7 : (toLowerStr t == "grid") = true
                · rw [if_pos h7, if_pos h7]
                  try simp [eNode]
                · rw [if_neg h7, if_neg h7]
                  by_cases h8 : (toLowerStr t == "stack") = true
                  · rw [if_pos h8, if_pos h8]
                    try simp [eNode]
                  · rw [if_neg h8, if_neg h8]
                    by_cases h9 : (toLowerStr t == "textarea") = true
                    · rw [if_pos h9, if_pos h9]
                      try simp [eNode]
                    · rw [if_neg h9, if_neg h9]
                      by_cases h10 : (toLowerStr t == "alert") = true
                      · rw [if_pos h10, if_pos h10]
                        try simp [eNode]
                      · rw [if_neg h10, if_neg h10]

theorem addRequested_erase (ml : String) (u1 u2 : Nat → String)
    (rest : List String) :
    ∀ (comps1 comps2 : List CNode) (k1 k2 : Nat),
      eList comps1 = eList comps2 →
      eList (addRequested ml u1 rest comps1 k1).1 =
        eList (addRequested ml u2 rest comps2 k2).1 := by
  induction rest with
  | nil =>
    intro comps1 comps2 k1 k2 h
    simpa only [addRequested] using h
  | cons comp rest ih =>
    intro comps1 comps2 k1 k2 h
    have hany : (comps1.any (fun c => c.type == comp)) =
        (comps2.any (fun c => c.type == comp)) := by
      rw [← any_type_eList comps1 comp, ← any_type_eList comps2 comp, h]
    simp only [addRequested]
    rw [hany]
    by_cases hcond : (!(comps2.any (fun c => c.type == comp)) &&
        strIncludes ml (toLowerStr comp)) = true
    · rw [if_pos hcond, if_pos hcond]
      have he := createCFT_erase comp u1 u2 k1 k2
      rcases hcc1 : createComponentFromType comp u1 k1 with ⟨o1, kk1⟩
      rcases hcc2 : createComponentFromType comp u2 k2 with ⟨o2, kk2⟩
      rw [hcc1, hcc2] at he
      cases o1 with
      | none =>
        cases o2 with
        | none => exact ih comps1 comps2 kk1 kk2 h
        | some c2 => simp at he
      | some c1 =>
        cases o2 with
        | none => simp at he
        | some c2 =>
          have hec : eNode c1 = eNode c2 := by simpa using he
          apply ih
          simp only [eList, List.map_append, List.map_cons, List.map_nil]
          rw [show comps1.map eNode = comps2.map eNode from h, hec]
    · rw [if_neg hcond, if_neg hcond]
      exact ih comps1 comps2 k1 k2 h

theorem planFormComponents_erase (m : String) (u1 u2 : Nat → String) (k1 k2 : Nat) :
    eList (planFormComponents m u1 k1).1 = eList (planFormComponents m u2 k2).1 := by
  simp only [planFormComponents]
  by_cases h1 : strIncludes (toLowerStr m) "email" = true <;>
    by_cases h2 : strIncludes (toLowerStr m) "password" = true <;>
      by_cases h3 : strIncludes (toLowerStr m) "name" = true <;>
        by_cases h4 : (strIncludes (toLowerStr m) "login" ||
            strIncludes (toLowerStr m) "form") = true <;>
          simp [h1, h2, h3, h4, eList, eNode]

theorem preComps_erase (m : String) (rc : List String)
    (u1 u2 : Nat → String) (k1 k2 : Nat) :
    eList (preComps m rc u1 k1).1 = eList (preComps m rc u2 k2).1 := by
  simp only [preComps]
  apply addRequested_erase
  simp only [eList, List.map_append]
  congr 1
  · by_cases hh : (strIncludes (toLowerStr m) "header" ||
        strIncludes (toLowerStr m) "title" || strIncludes (toLowerStr m) "top") = true <;>
      simp [hh, eNode]
  · by_cases hf : (strIncludes (toLowerStr m) "form" ||
        strIncludes (toLowerStr m) "login") = true
    · simp only [if_pos hf]
      have := planFormComponents_erase m u1 u2
        (if (strIncludes (toLowerStr m) "header" ||
            strIncludes (toLowerStr m) "title" ||
            strIncludes (toLowerStr m) "top") = true then k1 + 1 else k1)
        (if (strIncludes (toLowerStr m) "header" ||
            strIncludes (toLowerStr m) "title" ||
            strIncludes (toLowerStr m) "top") = true then k2 + 1 else k2)
      simpa [eList] using this
    · simp only [if_neg hf]

theorem planComponents_eq (m : String) (rc : List String) (u : Nat → String) (k : Nat) :
    planComponents m rc u k = wrapStep (toLowerStr m) u (preComps m rc u k) := rfl

theorem wrapStep_erase (ml : String) (u1 u2 : Nat → String)
    (p1 p2 : List CNode × Nat) (h : eList p1.1 = eList p2.1) :
    eList (wrapStep ml u1 p1).1 = eList (wrapStep ml u2 p2).1 := by
  rcases p1 with ⟨comps1, kk1⟩
  rcases p2 with ⟨comps2, kk2⟩
  simp only at h
  have hlen : comps1.length = comps2.length := by
    have := congrArg List.length h
    simpa [eList] using this
  have hemp : comps1.isEmpty = comps2.isEmpty := by
    cases comps1 <;> cases comps2 <;> simp_all
  simp only [wrapStep]
  rw [hlen, hemp]
  by_cases hgt : (decide (comps2.length > 1) && !(strIncludes ml "card")) = true
  · rw [if_pos hgt, if_pos hgt]
    have hg2 : comps2.length > 1 := by
      have := (Bool.and_eq_true _ _).mp hgt
      exact of_decide_eq_true this.1
    cases comps1 with
    | nil => simp [← hlen] at hg2
    | cons c0 r1 =>
      cases comps2 with
      | nil => simp at hg2
      | cons c0x r2 =>
        simp only [eList, List.map_cons] at h
        injection h with hh1 hh2
        simp only [eList, List.map_cons, List.map_nil, eNode, eChildren_map_node]
        rw [hh1, hh2]
  · rw [if_neg hgt, if_neg hgt]
    by_cases he2 : comps2.isEmpty = true
    · rw [if_pos he2, if_pos he2]
      simp [eList, eNode]
    · rw [if_neg he2, if_neg he2]
      exact h

theorem planComponents_erase (m : String) (rc : List String)
    (u1 u2 : Nat → String) (k1 k2 : Nat) :
    eList (planComponents m rc u1 k1).1 = eList (planComponents m rc u2 k2).1 := by
  rw [planComponents_eq, planComponents_eq]
  exact wrapStep_erase (toLowerStr m) u1 u2 _ _ (preComps_erase m rc u1 u2 k1 k2)

/-- C4 counterexample: two runs of the planner that draw different uuids give
plans whose component ids differ, so the plans are not byte-for-byte
identical. -/
theorem claim_C4_counterexample :
    (generatePlan "add a header" none supplyA 0).components.map CNode.id ≠
      (generatePlan "add a header" none supplyB 0).components.map CNode.id := by
  decide

/-- C4 (amended): for a fixed message and desired-components argument, the
generated plan is identical across runs up to erasing the per-run uuid-bearing
node ids: intent, component types, props, children shapes, layout, and
description all agree for any two uuid supplies and counters. -/
theorem claim_C4_amended (m : String) (d : Option (List String))
    (u1 u2 : Nat → String) (k1 k2 : Nat) :
    ePlan (generatePlan m d u1 k1) = ePlan (generatePlan m d u2 k2) := by
  have hpc := planComponents_erase m (d.getD (extractEntities m).componentsRequested)
    u1 u2 k1 k2
  have hlen : (planComponents m (d.getD (extractEntities m).componentsRequested) u1 k1).1.length
      = (planComponents m (d.getD (extractEntities m).componentsRequested) u2 k2).1.length := by
    have := congrArg List.length hpc
    simpa [eList] using this
  simp only [generatePlan, ePlan]
  rw [hpc, hlen]

end UIGen
